import Mathlib

/-!
Verification of the lesson-calendar engine of `calendario_service.py`.

Embedding conventions:

* Calendar days in the engine are embedded as `Nat` ordinals (days since
  an epoch that falls on a Monday), so `d % 7` is Python's `date.weekday()`
  (0 = Monday … 6 = Sunday) and `d + 1` is `d + timedelta(days=1)`.  All the
  engine ever does with dates is compare them, step one day forward and take
  the weekday, so this ordinal view is an isomorphic image of `datetime.date`.
  The free-text date expander (`expand_dates`, section further below) works on
  real `(year, month, day)` triples, as the Python code does there.
* The SQLAlchemy store is a `DB` structure restricted to a single class
  (every query in the service filters by `turma_id`).  Query `ORDER BY`
  clauses become `List.insertionSort` on the same keys; autoincrement primary
  keys become an explicit `nextAulaId` counter.
* `sumarios` is stored in the database as a comma-joined string and is read
  back by splitting on "," and dropping blank entries; we model the column
  directly as the list of its non-blank entries (`List String`).
* Numeric columns keep their SQL types: `Integer` becomes `ℤ` (nullable ones
  `Option ℤ`), the `Float` load columns become `ℚ`.
* Textual holiday/interruption records are resolved through `expand_dates`
  before the engine sees them; the engine-side records below carry the
  explicit date fields (`data_inicio`/`data_fim`, `data`) that the claims
  about the engine exercise.
-/

namespace Sumarios

/-- `modulos` table row (`Modulo` model). -/
structure Modulo where
  id : Nat
  nome : String
  total_aulas : Int
  tolerancia : Int
deriving DecidableEq

/-- `periodos` table row (`Periodo` model); dates are non-nullable. -/
structure Periodo where
  id : Nat
  nome : String
  tipo : String
  data_inicio : Nat
  data_fim : Nat
  modulo_id : Option Nat
deriving DecidableEq

/-- `turmas` table row (`Turma` model), the fields the engine reads. -/
structure Turma where
  id : Nat
  tipo : String
  periodo_tipo : String
  carga_segunda : Option Rat
  carga_terca : Option Rat
  carga_quarta : Option Rat
  carga_quinta : Option Rat
  carga_sexta : Option Rat
deriving DecidableEq

/-- `anos_letivos` table row (`AnoLetivo` model), the fields the engine reads. -/
structure AnoLetivo where
  data_inicio_ano : Nat
  data_fim_ano : Nat
deriving DecidableEq

/-- `horarios` table row (`Horario` model); `horas` is an `Integer` column. -/
structure Horario where
  weekday : Nat
  horas : Int
deriving DecidableEq

/-- `interrupcoes_letivas` row with its dates resolved (see header). -/
structure InterrupcaoLetiva where
  data_inicio : Option Nat
  data_fim : Option Nat
deriving DecidableEq

/-- `feriados` row with its date resolved (see header). -/
structure Feriado where
  data : Option Nat
deriving DecidableEq

/-- `calendario_aulas` table row (`CalendarioAula` model). -/
structure CalendarioAula where
  id : Nat
  periodo_id : Nat
  data : Nat
  weekday : Nat
  modulo_id : Option Nat
  numero_modulo : Option Int
  total_geral : Option Int
  sumarios : List String
  sumario : Option String
  tipo : String
  apagado : Bool
  tempos_sem_aula : Option Int
deriving DecidableEq

/-- The store, restricted to one class and its academic year. -/
structure DB where
  turma : Option Turma
  ano : Option AnoLetivo
  periodos : List Periodo
  modulos : List Modulo
  horarios : List Horario
  interrupcoes : List InterrupcaoLetiva
  feriados : List Feriado
  aulas : List CalendarioAula
  nextAulaId : Nat
  nextModuloId : Nat
deriving DecidableEq

/-- `Turma.query.get(turma_id)` in the single-class store. -/
def getTurma (db : DB) (turma_id : Nat) : Option Turma :=
  db.turma.bind (fun t => if t.id = turma_id then some t else none)

def PERIODOS_TURMA_VALIDOS : List String := ["anual", "semestre1", "semestre2"]

/-- `tipos_periodo_para_turma`: the period kinds applicable to the class. -/
def tipos_periodo_para_turma (turma : Turma) : List String :=
  let tipo_principal := if turma.periodo_tipo = "" then "anual" else turma.periodo_tipo
  if tipo_principal ∈ PERIODOS_TURMA_VALIDOS then ["modular", tipo_principal]
  else ["modular", "anual"]

/-- `filtrar_periodos_para_turma`. -/
def filtrar_periodos_para_turma (turma : Turma) (periodos : List Periodo) : List Periodo :=
  periodos.filter (fun p => p.tipo ∈ tipos_periodo_para_turma turma)

/-- `ORDER BY Modulo.id`. -/
def sortModulos (l : List Modulo) : List Modulo :=
  l.insertionSort (fun a b => a.id ≤ b.id)

/-- `ORDER BY Periodo.data_inicio`. -/
def sortPeriodos (l : List Periodo) : List Periodo :=
  l.insertionSort (fun a b => a.data_inicio ≤ b.data_inicio)

/-- `ORDER BY CalendarioAula.data, CalendarioAula.id` as a relation. -/
def aulaLe (a b : CalendarioAula) : Prop :=
  a.data < b.data ∨ (a.data = b.data ∧ a.id ≤ b.id)

instance : DecidableRel aulaLe := fun a b => by unfold aulaLe; infer_instance

def sortAulas (l : List CalendarioAula) : List CalendarioAula :=
  l.insertionSort aulaLe

/-- Active rows ordered by `(data, id)` (the query underlying every pass). -/
def ativosOrdenados (aulas : List CalendarioAula) : List CalendarioAula :=
  sortAulas (aulas.filter (fun a => !a.apagado))

/-- The Active rows of the class ordered by `(data, id)`. -/
def aulasAtivas (db : DB) : List CalendarioAula :=
  ativosOrdenados db.aulas

/-- `garantir_modulos_para_turma`: the class's modules ordered by id, with a
catch-all "Geral" module auto-created for regular-track classes without any. -/
def garantir_modulos_para_turma (db : DB) (turma : Turma) : List Modulo × DB :=
  let modulos := sortModulos db.modulos
  if modulos ≠ [] then (modulos, db)
  else if turma.tipo ≠ "regular" then ([], db)
  else
    let modulo_geral : Modulo := ⟨db.nextModuloId, "Geral", 0, 0⟩
    ([modulo_geral], { db with modulos := db.modulos ++ [modulo_geral],
                               nextModuloId := db.nextModuloId + 1 })

/-- `_mapa_carga_semana`: weekday → load, preferring the five explicit
per-weekday columns (null → 0) and falling back to summing `Horario` rows. -/
def _mapa_carga_semana (db : DB) (turma : Turma) : Nat → Rat :=
  let colunas : List (Option Rat) :=
    [turma.carga_segunda, turma.carga_terca, turma.carga_quarta,
     turma.carga_quinta, turma.carga_sexta]
  if colunas.any Option.isSome then
    fun w => (((colunas.get? w).join).getD 0)
  else
    fun w => if w ≤ 4 then
      (((db.horarios.filter (fun h => h.weekday = w)).map (fun h => (h.horas : Rat))).sum)
    else 0

/-- `_e_dia_letivo`: inside the academic year, Monday–Friday, not a holiday
nor an interruption day. -/
def _e_dia_letivo (d : Nat) (ano : AnoLetivo) (dias_interrupcao dias_feriados : List Nat) :
    Bool :=
  decide (ano.data_inicio_ano ≤ d) && decide (d ≤ ano.data_fim_ano) &&
  decide (d % 7 ≤ 4) && !(dias_interrupcao.contains d) && !(dias_feriados.contains d)

/-- `_build_dias_nao_letivos`: interruption-day and holiday-day sets. -/
def _build_dias_nao_letivos (db : DB) : List Nat × List Nat :=
  let dias_interrupcao := db.interrupcoes.foldl (fun acc intr =>
    match intr.data_inicio, intr.data_fim with
    | some ini, some fim => acc ++ List.range' ini (fim + 1 - ini)
    | some ini, none => acc ++ [ini]
    | none, _ => acc) []
  let dias_feriados := db.feriados.foldl (fun acc fer =>
    match fer.data with
    | some d => acc ++ [d]
    | none => acc) []
  (dias_interrupcao, dias_feriados)

def DEFAULT_TIPOS_SEM_AULA : List String := ["greve", "servico_oficial", "faltei", "outros"]

def TIPOS_ESPECIAIS : List String := ["greve", "servico_oficial", "outros", "extra", "faltei"]

/-- Python's default `str.strip` character class. -/
def pyWhitespace (c : Char) : Bool :=
  c == ' ' || c == '\t' || c == '\n' || c == '\r' ||
  c == Char.ofNat 11 || c == Char.ofNat 12

def stripChars (l : List Char) : List Char :=
  ((l.dropWhile pyWhitespace).reverse.dropWhile pyWhitespace).reverse

/-- `bool((aula.sumario or "").strip())`: the free-text summary is non-blank. -/
def temSumario (a : CalendarioAula) : Bool :=
  stripChars (a.sumario.getD "").data ≠ []

/-- The loop of `deduplicar_calendario_turma`: walk the Active rows in
`(data, id)` order keeping one per date in `vistos` and collecting the
duplicates; a row with a non-empty summary displaces a kept row without one. -/
def deduplicarLoop :
    List CalendarioAula → (Nat → Option CalendarioAula) → List CalendarioAula →
    (Nat → Option CalendarioAula) × List CalendarioAula
  | [], vistos, duplicados => (vistos, duplicados)
  | aula :: rest, vistos, duplicados =>
    match vistos aula.data with
    | none =>
      deduplicarLoop rest (fun d => if d = aula.data then some aula else vistos d) duplicados
    | some existente =>
      if temSumario aula && !(temSumario existente) then
        deduplicarLoop rest (fun d => if d = aula.data then some aula else vistos d)
          (duplicados ++ [existente])
      else
        deduplicarLoop rest vistos (duplicados ++ [aula])

/-- `deduplicar_calendario_turma` on the row list: soft-delete the duplicates. -/
def dedupAulas (aulas : List CalendarioAula) : List CalendarioAula × Nat :=
  let ativos := ativosOrdenados aulas
  let duplicados := (deduplicarLoop ativos (fun _ => none) []).2
  let ids : List Nat := duplicados.map (fun a => a.id)
  (aulas.map (fun a => if a.id ∈ ids then { a with apagado := true } else a),
   duplicados.length)

/-- `deduplicar_calendario_turma`: soft-delete the rows found duplicated. -/
def deduplicar_calendario_turma (db : DB) : DB × Nat :=
  let r := dedupAulas db.aulas
  ({ db with aulas := r.1 }, r.2)

/-- `_total_previsto_para_aula`: the row's day slot count,
`max(len(sumarios), tempos_sem_aula or 0, 1)` (blank entries dropped). -/
def _total_previsto_para_aula (a : CalendarioAula) : Int :=
  let sums := a.sumarios.filter (fun s => stripChars s.data ≠ [])
  let base : Int := if sums.length = 0 then 1 else sums.length
  let tempos : Int := a.tempos_sem_aula.getD 0
  max (max base tempos) 1

/-- The clamped non-lesson count the renumberer stores for a row: defaulting a
missing value to the slot total for special types (else to 0), clamped into
`[0, total]`. -/
def faltasRenumeracao (tipos : List String) (a : CalendarioAula) : Int :=
  let total := _total_previsto_para_aula a
  let faltas : Int :=
    if a.tipo ∈ tipos then a.tempos_sem_aula.getD total
    else a.tempos_sem_aula.getD 0
  max 0 (min faltas total)

/-- The number of global sequence numbers the renumberer gives a row
(`quantidade` in the source): 0 for special types, else total − clamped count. -/
def quantidadeRenumeracao (tipos : List String) (a : CalendarioAula) : Nat :=
  if a.tipo ∈ tipos then 0
  else (_total_previsto_para_aula a - faltasRenumeracao tipos a).toNat

/-- One iteration of the renumbering loop over a single Active row. -/
def renumerarAula (tipos : List String) (total_global : Nat) (prog : Nat → Nat)
    (a : CalendarioAula) : CalendarioAula × Nat × (Nat → Nat) :=
  let q := quantidadeRenumeracao tipos a
  let a' := { a with
    tempos_sem_aula := some (if a.tipo ∈ tipos then faltasRenumeracao tipos a else 0),
    sumarios := if 0 < q then (List.range' (total_global + 1) q).map (fun n => toString n) else [],
    total_geral := some ((total_global + q : Nat) : Int),
    numero_modulo := match a.modulo_id with
      | some m => some ((prog m + q : Nat) : Int)
      | none => none }
  let prog' : Nat → Nat := match a.modulo_id with
    | some m => fun j => if j = m then prog m + q else prog j
    | none => prog
  (a', total_global + q, prog')

/-- The renumbering loop over the Active rows in `(data, id)` order. -/
def renumerarPasso (tipos : List String) :
    List CalendarioAula → Nat → (Nat → Nat) → List CalendarioAula
  | [], _, _ => []
  | a :: rest, g, prog =>
    let r := renumerarAula tipos g prog a
    r.1 :: renumerarPasso tipos rest r.2.1 r.2.2

/-- `renumerar_calendario_turma` on the row list: dedupe, then rewrite every
Active row's sequence numbers from scratch in `(data, id)` order. -/
def renumerarAulas (aulas : List CalendarioAula) (tipos : List String) :
    List CalendarioAula × Nat :=
  let aulas1 := (dedupAulas aulas).1
  let ativos := ativosOrdenados aulas1
  let processadas := renumerarPasso tipos ativos 0 (fun _ => 0)
  (aulas1.map (fun a =>
      if a.apagado then a
      else (processadas.find? (fun b => b.id = a.id)).getD a),
   ativos.length)

/-- `renumerar_calendario_turma`: dedupe, then rewrite every Active row's
sequence numbers from scratch in `(data, id)` order. -/
def renumerar_calendario_turma (db : DB) (tipos_sem_aula : Option (List String)) :
    DB × Nat :=
  let r := renumerarAulas db.aulas (tipos_sem_aula.getD DEFAULT_TIPOS_SEM_AULA)
  ({ db with aulas := r.1 }, r.2)

/-- `_contar_aulas`: a row's net slot count (special types contribute 0). -/
def _contar_aulas (a : CalendarioAula) : Nat :=
  if a.tipo ∈ DEFAULT_TIPOS_SEM_AULA then 0
  else
    let total := _total_previsto_para_aula a
    let faltas := max 0 (min (a.tempos_sem_aula.getD 0) total)
    (max (total - faltas) 0).toNat

/-- `{m.id: int(m.total_aulas or 0)}`: module id → configured target. -/
def construirTotais (modulos : List Modulo) : Nat → Int :=
  modulos.foldl (fun f m => fun j => if j = m.id then m.total_aulas else f j)
    (fun _ => (0 : Int))

/-- Flush of the final per-day accumulator
(`if modulo_corrente and sumarios_correntes`). -/
def flushFinal (modCor : Option Nat) (sumCor : List Nat) (numFin : Option Nat) :
    List (Nat × List Nat × Nat) :=
  match modCor with
  | some mc => if sumCor ≠ [] then [(mc, sumCor, numFin.getD 0)] else []
  | none => []

/-- The inner `while aulas_hoje > 0` loop of `gerar_calendario_turma`: fill the
day's slots from the active module (the period's fixed module, or the module
at the cursor, skipping exhausted modules), accumulating `(module id, summary
codes, final per-module number)` triples, one per module used on the day.
Returns the triples together with the updated cursor, per-module delivered
counters and global summary counter.  Every iteration of the source loop
either consumes one of the day's slots or advances the cursor over a module,
so the loop runs at most `aulasHoje + (modulos.length - idx)` times; the
recursion is driven structurally by that iteration bound (`passos`), whose
exhaustion branch is unreachable. -/
def preencherDiaF (modulos : List Modulo) (periodo_modulo_id : Option Nat)
    (totais : Nat → Int) :
    Nat → Nat → (Nat → Nat) → Nat → Nat → Option Nat → List Nat → Option Nat →
    List (Nat × List Nat × Nat) × Nat × (Nat → Nat) × Nat
  | 0, idx, prog, contador, _, modCor, sumCor, numFin =>
    (flushFinal modCor sumCor numFin, idx, prog, contador)
  | passos + 1, idx, prog, contador, aulasHoje, modCor, sumCor, numFin =>
    if aulasHoje = 0 then (flushFinal modCor sumCor numFin, idx, prog, contador)
    else
      match periodo_modulo_id with
      | some pid =>
        match modulos.find? (fun m => m.id = pid) with
        | none => (flushFinal modCor sumCor numFin, idx, prog, contador)
        | some m =>
          let dadas := prog m.id
          let total_modulo := totais m.id
          if 0 < total_modulo ∧ total_modulo ≤ (dadas : Int) then
            -- fixed module exhausted: stop filling for the day
            (flushFinal modCor sumCor numFin, idx, prog, contador)
          else
            let dadas' := dadas + 1
            let prog' : Nat → Nat := fun j => if j = m.id then dadas' else prog j
            let contador' := contador + 1
            let fl := match modCor with
              | some mc => if mc ≠ m.id then [(mc, sumCor, numFin.getD 0)] else []
              | none => []
            let sumCor' := (if fl = [] then sumCor else []) ++ [contador']
            let r := preencherDiaF modulos periodo_modulo_id totais passos idx prog'
              contador' (aulasHoje - 1) (some m.id) sumCor' (some dadas')
            (fl ++ r.1, r.2)
      | none =>
        match modulos.get? idx with
        | none => (flushFinal modCor sumCor numFin, idx, prog, contador)
        | some m =>
          let dadas := prog m.id
          let total_modulo := totais m.id
          if 0 < total_modulo ∧ total_modulo ≤ (dadas : Int) then
            -- cursor module exhausted: advance the cursor and retry
            preencherDiaF modulos periodo_modulo_id totais passos (idx + 1) prog
              contador aulasHoje modCor sumCor numFin
          else
            let dadas' := dadas + 1
            let prog' : Nat → Nat := fun j => if j = m.id then dadas' else prog j
            let contador' := contador + 1
            let fl := match modCor with
              | some mc => if mc ≠ m.id then [(mc, sumCor, numFin.getD 0)] else []
              | none => []
            let sumCor' := (if fl = [] then sumCor else []) ++ [contador']
            let idx' := if 0 < total_modulo ∧ total_modulo ≤ (dadas' : Int) then idx + 1 else idx
            let r := preencherDiaF modulos periodo_modulo_id totais passos idx' prog'
              contador' (aulasHoje - 1) (some m.id) sumCor' (some dadas')
            (fl ++ r.1, r.2)

/-- The day-fill loop entered with its iteration bound. -/
def preencherDia (modulos : List Modulo) (periodo_modulo_id : Option Nat)
    (totais : Nat → Int) (idx : Nat) (prog : Nat → Nat) (contador : Nat)
    (aulasHoje : Nat) (modCor : Option Nat) (sumCor : List Nat) (numFin : Option Nat) :
    List (Nat × List Nat × Nat) × Nat × (Nat → Nat) × Nat :=
  preencherDiaF modulos periodo_modulo_id totais
    (aulasHoje + (modulos.length - idx) + 1) idx prog contador aulasHoje modCor sumCor numFin

/-- The mutable state threaded through the generation walk. -/
structure GenState where
  idx : Nat
  prog : Nat → Nat
  contador : Nat
  datas_existentes : Nat → Bool
  novas : List CalendarioAula
  nextAulaId : Nat
  total_criadas : Nat

/-- Turn the day's `(module, codes, number)` triples into `CalendarioAula`
rows (`tipo="normal"`), marking the date as occupied per created row. -/
def criarAulasDoDia (periodo : Periodo) (d : Nat)
    (linhas : List (Nat × List Nat × Nat)) (st : GenState) : GenState :=
  linhas.foldl (fun st lin =>
    let aula : CalendarioAula :=
      { id := st.nextAulaId
        periodo_id := periodo.id
        data := d
        weekday := d % 7
        modulo_id := some lin.1
        numero_modulo := some (lin.2.2 : Int)
        total_geral := some ((lin.2.1.getLast?.getD 0 : Nat) : Int)
        sumarios := lin.2.1.map (fun n => toString n)
        sumario := none
        tipo := "normal"
        apagado := false
        tempos_sem_aula := some 0 }
    { st with novas := st.novas ++ [aula]
              nextAulaId := st.nextAulaId + 1
              total_criadas := st.total_criadas + 1
              datas_existentes := fun x => if x = d then true else st.datas_existentes x }) st

/-- One day of the generation walk (the body of the per-period date loop). -/
def gerarDia (ano : AnoLetivo) (dias_interrupcao dias_feriados : List Nat)
    (carga : Nat → Rat) (modulos : List Modulo) (totais : Nat → Int)
    (periodo : Periodo) (d : Nat) (st : GenState) : GenState :=
  if st.datas_existentes d then st
  else if !(_e_dia_letivo d ano dias_interrupcao dias_feriados) then st
  else
    let carga_dia := carga (d % 7)
    if carga_dia ≤ 0 then st
    else
      let aulas_hoje := carga_dia.floor
      if aulas_hoje ≤ 0 then st
      else
        let r := preencherDia modulos periodo.modulo_id totais st.idx st.prog
          st.contador aulas_hoje.toNat none [] none
        criarAulasDoDia periodo d r.1
          { st with idx := r.2.1, prog := r.2.2.1, contador := r.2.2.2 }

/-- The per-period date walk (`while data_atual <= periodo.data_fim`), driven
structurally by the number of remaining days. -/
def walkDiasF (ano : AnoLetivo) (dias_interrupcao dias_feriados : List Nat)
    (carga : Nat → Rat) (modulos : List Modulo) (totais : Nat → Int)
    (periodo : Periodo) : Nat → Nat → GenState → GenState
  | 0, _, st => st
  | dias + 1, d, st =>
    if d ≤ periodo.data_fim then
      walkDiasF ano dias_interrupcao dias_feriados carga modulos totais periodo dias (d + 1)
        (gerarDia ano dias_interrupcao dias_feriados carga modulos totais periodo d st)
    else st

/-- The date walk entered at the period's start with its day count. -/
def walkDias (ano : AnoLetivo) (dias_interrupcao dias_feriados : List Nat)
    (carga : Nat → Rat) (modulos : List Modulo) (totais : Nat → Int)
    (periodo : Periodo) (d : Nat) (st : GenState) : GenState :=
  walkDiasF ano dias_interrupcao dias_feriados carga modulos totais periodo
    (periodo.data_fim + 1 - d) d st

/-- The walk over every applicable period in date order. -/
def walkPeriodos (ano : AnoLetivo) (dias_interrupcao dias_feriados : List Nat)
    (carga : Nat → Rat) (modulos : List Modulo) (totais : Nat → Int)
    (periodos : List Periodo) (st : GenState) : GenState :=
  periodos.foldl (fun st p =>
    walkDias ano dias_interrupcao dias_feriados carga modulos totais p p.data_inicio st) st

/-- `any(carga_por_dia.values())`: some weekday (0–4) has a non-zero load. -/
def temCarga (carga : Nat → Rat) : Bool :=
  (List.range 5).any (fun i => carga i ≠ 0)

/-- `gerar_calendario_turma`: generate the class's calendar.  Raises
(`Except.error`) for a missing class; returns 0 created rows when the class
has no academic year, no applicable period, no module, or no weekly load. -/
def gerar_calendario_turma (db : DB) (turma_id : Nat) (recalcular_tudo : Bool) :
    Except String (DB × Nat) :=
  match getTurma db turma_id with
  | none => Except.error "Turma não encontrada."
  | some turma =>
    match db.ano with
    | none => Except.ok (db, 0)
    | some ano =>
      let nl := _build_dias_nao_letivos db
      let periodos := filtrar_periodos_para_turma turma (sortPeriodos db.periodos)
      if periodos = [] then Except.ok (db, 0)
      else
        let gm := garantir_modulos_para_turma db turma
        let modulos := gm.1
        let db1 := gm.2
        if modulos = [] then Except.ok (db1, 0)
        else
          let totais := construirTotais modulos
          let carga := _mapa_carga_semana db1 turma
          let db2 := if recalcular_tudo then { db1 with aulas := [] } else db1
          let datas_existentes : Nat → Bool :=
            if recalcular_tudo then fun _ => false
            else fun d => db1.aulas.any (fun a => !a.apagado && a.data == d)
          if !(temCarga carga) then Except.ok (db2, 0)
          else
            let st0 : GenState :=
              ⟨0, fun _ => 0, 0, datas_existentes, [], db2.nextAulaId, 0⟩
            let stF := walkPeriodos ano nl.1 nl.2 carga modulos totais periodos st0
            let db3 := { db2 with aulas := db2.aulas ++ stF.novas,
                                  nextAulaId := stF.nextAulaId }
            let db4 := (renumerar_calendario_turma db3 none).1
            Except.ok (db4, stF.total_criadas)

/-- C3's class: weekday load Mon=3, Wed=3, all other columns null. -/
def turmaC3 : Turma :=
  { id := 1, tipo := "profissional", periodo_tipo := "anual",
    carga_segunda := some 3, carga_terca := none, carga_quarta := some 3,
    carga_quinta := none, carga_sexta := none }

/-- C3's store: one annual period over days 0–97 (14 weeks), no holidays or
interruptions, two modules with targets 15 and 20. -/
def dbC3 : DB :=
  { turma := some turmaC3
    ano := some ⟨0, 200⟩
    periodos := [⟨1, "Anual", "anual", 0, 97, none⟩]
    modulos := [⟨1, "M1", 15, 2⟩, ⟨2, "M2", 20, 2⟩]
    horarios := []
    interrupcoes := []
    feriados := []
    aulas := []
    nextAulaId := 1
    nextModuloId := 3 }

/-- The generator's result on `dbC3` (it succeeds; the error default is inert). -/
def resultadoC3 : DB × Nat :=
  match gerar_calendario_turma dbC3 1 true with
  | Except.ok p => p
  | Except.error _ => (dbC3, 0)

set_option maxRecDepth 100000

/-- C1 helper: slots assigned (summary-code count) to module `i` in a row list. -/
def contagemModulo (l : List CalendarioAula) (i : Nat) : Nat :=
  ((l.filter (fun a => a.modulo_id = some i)).map (fun a => a.sumarios.length)).sum

/-- C3: on a class with weekday load Mon=3/Wed=3, no holidays or interruptions
and two modules with targets 15 and 20, a full regeneration over a 14-week
window succeeds and creates exactly 12 rows carrying 35 net lesson-slots; in
`(data, id)` order the summary codes are exactly 1..35, codes 1..15 all on
module 1 and 16..35 all on module 2, and the rows are in date order — this is
the state left after the trailing renumber/dedup pass that generation invokes. -/
theorem C3_concrete_generation :
    (gerar_calendario_turma dbC3 1 true).toOption = some resultadoC3 ∧
    resultadoC3.2 = 12 ∧
    ((aulasAtivas resultadoC3.1).map (fun a => a.sumarios)).flatten
      = (List.range' 1 35).map (fun n => toString n) ∧
    (((aulasAtivas resultadoC3.1).filter (fun a => a.modulo_id = some 1)).map
      (fun a => a.sumarios)).flatten = (List.range' 1 15).map (fun n => toString n) ∧
    (((aulasAtivas resultadoC3.1).filter (fun a => a.modulo_id = some 2)).map
      (fun a => a.sumarios)).flatten = (List.range' 16 20).map (fun n => toString n) ∧
    ((aulasAtivas resultadoC3.1).map _contar_aulas).sum = 35 ∧
    List.Pairwise (· ≤ ·) ((aulasAtivas resultadoC3.1).map (fun a => a.data)) := by
  decide

/-- A store whose single class does not have id 1 (any lookup misses). -/
def dbSemTurma : DB :=
  { turma := none, ano := none, periodos := [], modulos := [], horarios := [],
    interrupcoes := [], feriados := [], aulas := [], nextAulaId := 1, nextModuloId := 1 }

/-- A store whose class exists but resolves no academic year. -/
def dbSemAno : DB :=
  { turma := some ⟨1, "regular", "anual", none, none, none, none, none⟩,
    ano := none, periodos := [], modulos := [], horarios := [],
    interrupcoes := [], feriados := [], aulas := [], nextAulaId := 1, nextModuloId := 1 }

/-- C7 counterexample: called for a missing class, the generator raises
(`Except.error`, mirroring the source's `raise ValueError`) instead of
returning a zero-count result as the claim states. -/
theorem C7_counterexample_missing_class :
    (gerar_calendario_turma dbSemTurma 1 true).toOption = none := by decide

/-- C7 (amended): a missing class raises a `ValueError`; only a class with no
resolvable academic year is treated as "nothing to do" and returns a
zero-count result with the store untouched. -/
theorem C7_amended_missing_year_returns_zero :
    (∀ db tid rec, getTurma db tid = none →
      (gerar_calendario_turma db tid rec).toOption = none) ∧
    (∀ db tid rec t, getTurma db tid = some t → db.ano = none →
      gerar_calendario_turma db tid rec = Except.ok (db, 0)) := by
  constructor
  · intro db tid rec h
    simp [gerar_calendario_turma, h, Except.toOption]
  · intro db tid rec t h hano
    simp [gerar_calendario_turma, h, hano]

theorem C7_amended_witness :
    (gerar_calendario_turma dbSemTurma 1 true).toOption = none ∧
    gerar_calendario_turma dbSemAno 1 true = Except.ok (dbSemAno, 0) :=
  ⟨C7_amended_missing_year_returns_zero.1 dbSemTurma 1 true (by decide),
   C7_amended_missing_year_returns_zero.2 dbSemAno 1 true _ rfl rfl⟩

/-- C10: with `recalcular_tudo`, the generator hard-deletes every calendar row
of the class before checking the weekly load, so for a class (with an academic
year, applicable periods and modules) whose resolved load is zero on every
weekday it returns 0 created rows while leaving the class with no calendar
rows at all: the zero-result path is not state-preserving. -/
theorem C10_zero_load_path_deletes_rows (db : DB) (tid : Nat) (t : Turma)
    (ano : AnoLetivo) (ht : getTurma db tid = some t) (hano : db.ano = some ano)
    (hper : filtrar_periodos_para_turma t (sortPeriodos db.periodos) ≠ [])
    (hmod : (garantir_modulos_para_turma db t).1 ≠ [])
    (hcarga : temCarga (_mapa_carga_semana (garantir_modulos_para_turma db t).2 t) = false) :
    gerar_calendario_turma db tid true =
      Except.ok ({ (garantir_modulos_para_turma db t).2 with aulas := [] }, 0) ∧
    ({ (garantir_modulos_para_turma db t).2 with aulas := ([] : List CalendarioAula) } : DB).aulas = [] := by
  refine ⟨?_, rfl⟩
  simp only [gerar_calendario_turma, ht, hano]
  simp [hper, hmod, hcarga]

/-- C10 witness class/store: explicit load columns all null and no timetable
rows, so every weekday resolves to load 0; one pre-existing calendar row. -/
def turmaC10 : Turma := ⟨1, "regular", "anual", none, none, none, none, none⟩

def dbC10 : DB :=
  { turma := some turmaC10
    ano := some ⟨0, 100⟩
    periodos := [⟨1, "Anual", "anual", 0, 10, none⟩]
    modulos := [⟨1, "M", 5, 0⟩]
    horarios := []
    interrupcoes := []
    feriados := []
    aulas := [⟨1, 1, 3, 3, some 1, none, none, ["1"], none, "normal", false, some 0⟩]
    nextAulaId := 2
    nextModuloId := 2 }

theorem C10_witness :
    dbC10.aulas ≠ [] ∧
    (gerar_calendario_turma dbC10 1 true =
      Except.ok ({ (garantir_modulos_para_turma dbC10 turmaC10).2 with aulas := [] }, 0) ∧
    ({ (garantir_modulos_para_turma dbC10 turmaC10).2 with aulas := ([] : List CalendarioAula) } : DB).aulas = []) :=
  ⟨by decide,
   C10_zero_load_path_deletes_rows dbC10 1 turmaC10 ⟨0, 100⟩ rfl rfl
     (by decide) (by decide) (by decide)⟩

/-- C4 counterexample row: a special-type ("greve") Active lesson with two
summary codes and a recorded non-lesson count of 1, so `total = 2`, `n = 1`.
The claim's formula gives net `total - n = 1`, but the renumberer gives a
special-type row net 0 unconditionally. -/
def aulaGreveParcial : CalendarioAula :=
  ⟨1, 1, 0, 0, some 1, none, none, ["1", "2"], none, "greve", false, some 1⟩

/-- C4 counterexample: on `aulaGreveParcial` the code's net slot count is 0
while the claimed formula `total − n` yields 1; the claim's special-type net
rule does not hold on the code. -/
theorem C4_counterexample_special_net :
    aulaGreveParcial.tipo ∈ DEFAULT_TIPOS_SEM_AULA ∧
    _total_previsto_para_aula aulaGreveParcial = 2 ∧
    faltasRenumeracao DEFAULT_TIPOS_SEM_AULA aulaGreveParcial = 1 ∧
    quantidadeRenumeracao DEFAULT_TIPOS_SEM_AULA aulaGreveParcial = 0 ∧
    ((quantidadeRenumeracao DEFAULT_TIPOS_SEM_AULA aulaGreveParcial : Int) ≠ 2 - 1) := by
  decide

/-- C4 (amended): during renumbering, with `total = max(len(summary_codes),
recorded non-lesson count, 1)` and clamped non-lesson count `n ∈ [0, total]`:
a special-type row's net is 0 (not `total − n`) and a non-special row's net is
`total − n` (not `total`); a row with net > 0 receives exactly the next `net`
consecutive global sequence numbers and advances its module's counter by
`net`; a row with net = 0 keeps its place with cleared summary codes and its
per-module number is the module's counter unchanged. -/
theorem C4_amended_net_and_numbering (tipos : List String) (a : CalendarioAula)
    (g : Nat) (prog : Nat → Nat) :
    (0 ≤ faltasRenumeracao tipos a ∧
     faltasRenumeracao tipos a ≤ _total_previsto_para_aula a) ∧
    (a.tipo ∈ tipos → quantidadeRenumeracao tipos a = 0) ∧
    (a.tipo ∉ tipos → (quantidadeRenumeracao tipos a : Int)
       = _total_previsto_para_aula a - faltasRenumeracao tipos a) ∧
    (0 < quantidadeRenumeracao tipos a →
       (renumerarAula tipos g prog a).1.sumarios
         = (List.range' (g + 1) (quantidadeRenumeracao tipos a)).map (fun n => toString n) ∧
       (renumerarAula tipos g prog a).2.1 = g + quantidadeRenumeracao tipos a ∧
       (∀ m, a.modulo_id = some m →
          (renumerarAula tipos g prog a).1.numero_modulo
            = some ((prog m + quantidadeRenumeracao tipos a : Nat) : Int) ∧
          (renumerarAula tipos g prog a).2.2 m = prog m + quantidadeRenumeracao tipos a)) ∧
    (quantidadeRenumeracao tipos a = 0 →
       (renumerarAula tipos g prog a).1.sumarios = [] ∧
       (renumerarAula tipos g prog a).2.1 = g ∧
       (∀ m, a.modulo_id = some m →
          (renumerarAula tipos g prog a).1.numero_modulo = some ((prog m : Nat) : Int) ∧
          (renumerarAula tipos g prog a).2.2 m = prog m)) := by
  have htot : (1 : Int) ≤ _total_previsto_para_aula a := by
    simp only [_total_previsto_para_aula]
    exact le_max_right _ _
  have hf0 : 0 ≤ faltasRenumeracao tipos a := by
    simp only [faltasRenumeracao]
    exact le_max_left _ _
  have hft : faltasRenumeracao tipos a ≤ _total_previsto_para_aula a := by
    simp only [faltasRenumeracao]
    exact max_le (le_trans zero_le_one htot) (min_le_right _ _)
  refine ⟨⟨hf0, hft⟩, ?_, ?_, ?_, ?_⟩
  · intro h; simp [quantidadeRenumeracao, h]
  · intro h
    simp only [quantidadeRenumeracao, if_neg h]
    exact Int.toNat_of_nonneg (by omega)
  · intro hq
    unfold renumerarAula
    refine ⟨by simp [hq], by simp, ?_⟩
    intro m hm
    simp [hm]
  · intro hq
    unfold renumerarAula
    refine ⟨by simp [hq], by simp [hq], ?_⟩
    intro m hm
    simp [hm, hq]

/-- C4 witness row: a normal-type lesson, three codes, one recorded
non-lesson slot: `total = 3`, `n = 1`, net `= 2`. -/
def aulaNormalParcial : CalendarioAula :=
  ⟨2, 1, 0, 0, some 7, none, none, ["1", "2", "3"], none, "normal", false, some 1⟩

theorem C4_amended_witness :
    ((quantidadeRenumeracao DEFAULT_TIPOS_SEM_AULA aulaNormalParcial : Int)
      = _total_previsto_para_aula aulaNormalParcial
        - faltasRenumeracao DEFAULT_TIPOS_SEM_AULA aulaNormalParcial) ∧
    (renumerarAula DEFAULT_TIPOS_SEM_AULA 5 (fun _ => 0) aulaNormalParcial).1.sumarios
      = (List.range' 6 (quantidadeRenumeracao DEFAULT_TIPOS_SEM_AULA aulaNormalParcial)).map
          (fun n => toString n) :=
  ⟨(C4_amended_net_and_numbering DEFAULT_TIPOS_SEM_AULA aulaNormalParcial 5
      (fun _ => 0)).2.2.1 (by decide),
   ((C4_amended_net_and_numbering DEFAULT_TIPOS_SEM_AULA aulaNormalParcial 5
      (fun _ => 0)).2.2.2.1 (by decide)).1⟩

/-! ### Deduplication: specification of the keep/soft-delete choice -/

/-- Rows of a list dated `d`. -/
def grupoData (s : List CalendarioAula) (d : Nat) : List CalendarioAula :=
  s.filter (fun a => a.data = d)

/-- The per-date evolution of `vistos`/`duplicados` in `deduplicar`'s loop:
starting from kept row `ex`, fold the remaining same-date rows, keeping a row
with a summary over a summaryless kept row. -/
def keeperFold (ex : CalendarioAula) :
    List CalendarioAula → CalendarioAula × List CalendarioAula
  | [] => (ex, [])
  | a :: g =>
    if temSumario a && !(temSumario ex) then
      let r := keeperFold a g
      (r.1, ex :: r.2)
    else
      let r := keeperFold ex g
      (r.1, a :: r.2)

/-- The kept row is the first row carrying a summary, or the first row. -/
theorem keeperFold_keeper (g : List CalendarioAula) :
    ∀ ex, (keeperFold ex g).1 = (((ex :: g).find? temSumario).getD ex) := by
  induction g with
  | nil =>
    intro ex
    cases h : temSumario ex <;> simp [keeperFold, List.find?, h]
  | cons a g ih =>
    intro ex
    by_cases hex : temSumario ex
    · rw [List.find?_cons_of_pos _ hex]
      have h1 := ih ex
      rw [List.find?_cons_of_pos _ hex] at h1
      simp only [Option.getD_some] at h1
      simp [keeperFold, hex, h1]
    · rw [List.find?_cons_of_neg _ (by simpa using hex)]
      by_cases ha : temSumario a
      · rw [List.find?_cons_of_pos _ ha]
        have h1 := ih a
        rw [List.find?_cons_of_pos _ ha] at h1
        simp only [Option.getD_some] at h1
        simp [keeperFold, hex, ha, h1]
      · rw [List.find?_cons_of_neg _ (by simpa using ha)]
        have h1 := ih ex
        rw [List.find?_cons_of_neg _ (by simpa using hex)] at h1
        simp only [keeperFold, ha, Bool.false_and, if_false]
        rw [h1]
        rcases h2 : g.find? temSumario with _ | b <;> simp [h2]

/-- Kept row plus dropped rows are a permutation of the date's rows. -/
theorem keeperFold_perm (g : List CalendarioAula) :
    ∀ ex, ((keeperFold ex g).1 :: (keeperFold ex g).2).Perm (ex :: g) := by
  induction g with
  | nil => intro ex; simp [keeperFold]
  | cons a g ih =>
    intro ex
    unfold keeperFold
    split
    · dsimp only
      exact (List.Perm.swap ex _ _).trans ((ih a).cons ex)
    · dsimp only
      exact ((List.Perm.swap a _ _).trans ((ih ex).cons a)).trans (List.Perm.swap ex a g)

/-- The per-date outcome of a whole loop run, as a function of the entry
`vistos` value for that date and the date's rows. -/
def keeperDe :
    Option CalendarioAula → List CalendarioAula →
    Option CalendarioAula × List CalendarioAula
  | none, [] => (none, [])
  | none, x :: g => (some (keeperFold x g).1, (keeperFold x g).2)
  | some ex, g => (some (keeperFold ex g).1, (keeperFold ex g).2)

/-- Updating `vistos` at a row's own date preserves the date-filing invariant. -/
theorem vistosUpdate_inv (vistos : Nat → Option CalendarioAula) (a : CalendarioAula)
    (hv : ∀ d' ex, vistos d' = some ex → ex.data = d') :
    ∀ d' ex, (if d' = a.data then some a else vistos d') = some ex → ex.data = d' := by
  intro d' ex h
  rcases eq_or_ne d' a.data with h' | h'
  · subst h'
    rw [if_pos rfl] at h
    cases h
    rfl
  · rw [if_neg h'] at h
    exact hv d' ex h

/-- `deduplicarLoop`, date by date: provided every row kept in `vistos` is
filed under its own date, the final kept row and the appended duplicates of
each date are described by `keeperDe` on that date's rows. -/
theorem deduplicarLoop_spec (s : List CalendarioAula) :
    ∀ (vistos : Nat → Option CalendarioAula) (dups : List CalendarioAula) (d : Nat),
    (∀ d' ex, vistos d' = some ex → ex.data = d') →
    (deduplicarLoop s vistos dups).1 d = (keeperDe (vistos d) (grupoData s d)).1 ∧
    (deduplicarLoop s vistos dups).2.filter (fun a => a.data = d) =
      dups.filter (fun a => a.data = d) ++ (keeperDe (vistos d) (grupoData s d)).2 := by
  induction s with
  | nil =>
    intro vistos dups d _
    constructor
    · cases h : vistos d <;> simp [deduplicarLoop, grupoData, keeperDe, keeperFold, h]
    · cases h : vistos d <;> simp [deduplicarLoop, grupoData, keeperDe, keeperFold, h]
  | cons a rest ih =>
    intro vistos dups d hv
    cases hva : vistos a.data with
    | none =>
      have hstep : deduplicarLoop (a :: rest) vistos dups =
          deduplicarLoop rest (fun x => if x = a.data then some a else vistos x) dups := by
        simp [deduplicarLoop, hva]
      obtain ⟨IH1, IH2⟩ := ih (fun x => if x = a.data then some a else vistos x) dups d
        (fun d' ex h => vistosUpdate_inv vistos a hv d' ex h)
      by_cases hd : a.data = d
      · subst hd
        have hgr : grupoData (a :: rest) a.data = a :: grupoData rest a.data := by
          simp [grupoData, List.filter_cons]
        rw [hstep]
        constructor
        · rw [IH1, if_pos rfl, hva, hgr]
          rfl
        · rw [IH2, if_pos rfl, hva, hgr]
          rfl
      · have hgr : grupoData (a :: rest) d = grupoData rest d := by
          simp [grupoData, List.filter_cons, hd]
        rw [hstep]
        constructor
        · rw [IH1, if_neg (Ne.symm hd), hgr]
        · rw [IH2, if_neg (Ne.symm hd), hgr]
    | some ex =>
      have hexd : ex.data = a.data := hv _ _ hva
      by_cases hcond : (temSumario a && !(temSumario ex)) = true
      · have hstep : deduplicarLoop (a :: rest) vistos dups =
            deduplicarLoop rest (fun x => if x = a.data then some a else vistos x)
              (dups ++ [ex]) := by
          simp [deduplicarLoop, hva, hcond]
        obtain ⟨IH1, IH2⟩ := ih (fun x => if x = a.data then some a else vistos x)
          (dups ++ [ex]) d (fun d' ex' h => vistosUpdate_inv vistos a hv d' ex' h)
        by_cases hd : a.data = d
        · subst hd
          rw [hstep]
          have hgr : grupoData (a :: rest) a.data = a :: grupoData rest a.data := by
            simp [grupoData, List.filter_cons]
          constructor
          · rw [IH1, if_pos rfl, hva, hgr]
            show some (keeperFold a (grupoData rest a.data)).1
              = some (keeperFold ex (a :: grupoData rest a.data)).1
            simp only [keeperFold, hcond, if_true]
          · rw [IH2, if_pos rfl, hva, hgr, List.filter_append]
            have hexf : [ex].filter (fun x => x.data = a.data) = [ex] := by
              simp [List.filter, hexd]
            rw [hexf]
            show _ ++ [ex] ++ (keeperFold a (grupoData rest a.data)).2
              = _ ++ (keeperFold ex (a :: grupoData rest a.data)).2
            simp only [keeperFold, hcond, if_true]
            simp
        · have hgr : grupoData (a :: rest) d = grupoData rest d := by
            simp [grupoData, List.filter_cons, hd]
          rw [hstep]
          constructor
          · rw [IH1, if_neg (Ne.symm hd), hgr]
          · rw [IH2, if_neg (Ne.symm hd), hgr, List.filter_append]
            have hexf : [ex].filter (fun x => x.data = d) = [] := by
              simp [List.filter, hexd, hd]
            rw [hexf]
            simp
      · have hstep : deduplicarLoop (a :: rest) vistos dups =
            deduplicarLoop rest vistos (dups ++ [a]) := by
          simp only [deduplicarLoop, hva]
          rw [if_neg hcond]
        obtain ⟨IH1, IH2⟩ := ih vistos (dups ++ [a]) d hv
        by_cases hd : a.data = d
        · subst hd
          rw [hstep]
          have hgr : grupoData (a :: rest) a.data = a :: grupoData rest a.data := by
            simp [grupoData, List.filter_cons]
          constructor
          · rw [IH1, hva, hgr]
            show some (keeperFold ex (grupoData rest a.data)).1
              = some (keeperFold ex (a :: grupoData rest a.data)).1
            simp only [keeperFold]
            rw [if_neg hcond]
          · rw [IH2, hva, hgr, List.filter_append]
            have haf : [a].filter (fun x => x.data = a.data) = [a] := by
              simp [List.filter]
            rw [haf]
            show _ ++ [a] ++ (keeperFold ex (grupoData rest a.data)).2
              = _ ++ (keeperFold ex (a :: grupoData rest a.data)).2
            simp only [keeperFold]
            rw [if_neg hcond]
            simp
        · have hgr : grupoData (a :: rest) d = grupoData rest d := by
            simp [grupoData, List.filter_cons, hd]
          rw [hstep]
          constructor
          · rw [IH1, hgr]
          · rw [IH2, hgr, List.filter_append]
            have haf : [a].filter (fun x => x.data = d) = [] := by
              simp [List.filter, hd]
            rw [haf]
            simp

/-- Soft-delete marking, then keeping the Active rows, equals filtering the
original rows to those Active and not marked. -/
theorem filter_map_mark (l : List CalendarioAula) (ids : List Nat) :
    ((l.map (fun a => if a.id ∈ ids then { a with apagado := true } else a)).filter
      (fun a => !a.apagado))
      = l.filter (fun a => !a.apagado && !(decide (a.id ∈ ids))) := by
  induction l with
  | nil => simp
  | cons a l ih =>
    by_cases hid : a.id ∈ ids
    · simp [List.filter_cons, hid, ih]
    · by_cases hap : a.apagado <;> simp [List.filter_cons, hid, hap, ih]

/-- Rows of a list with `Nodup` ids are determined by their id. -/
theorem id_inj (l : List CalendarioAula) (h : (l.map (fun a => a.id)).Nodup) :
    ∀ a ∈ l, ∀ b ∈ l, a.id = b.id → a = b := by
  induction l with
  | nil => simp
  | cons x l ih =>
    simp only [List.map_cons, List.nodup_cons] at h
    intro a ha b hb hab
    rcases List.mem_cons.mp ha with rfl | ha' <;>
      rcases List.mem_cons.mp hb with rfl | hb'
    · rfl
    · exact absurd (hab ▸ List.mem_map_of_mem (fun a => a.id) hb') h.1
    · exact absurd (hab ▸ List.mem_map_of_mem (fun a => a.id) ha') h.1
    · exact ih h.2 a ha' b hb' hab

/-- If every value of `f` occurs at most once in `l`, values are pairwise
distinct along `l`. -/
theorem pairwise_ne_of_counts {α β : Type} [DecidableEq β] (f : α → β) :
    ∀ l : List α, (∀ b, (l.filter (fun x => f x = b)).length ≤ 1) →
      l.Pairwise (fun x y => f x ≠ f y) := by
  intro l
  induction l with
  | nil => intro _; simp
  | cons x l ih =>
    intro h
    have hfe : (x :: l).filter (fun z => f z = f x) = x :: l.filter (fun z => f z = f x) := by
      simp [List.filter_cons]
    have hnil : l.filter (fun z => f z = f x) = [] := by
      have h2 := h (f x)
      rw [hfe] at h2
      cases hfl : l.filter (fun z => decide (f z = f x)) with
      | nil => simpa using hfl
      | cons c cs =>
        rw [show l.filter (fun z => f z = f x) = l.filter (fun z => decide (f z = f x)) from rfl,
          hfl] at h2
        simp at h2
    refine List.Pairwise.cons ?_ (ih ?_)
    · intro y hy hcontra
      have : y ∈ l.filter (fun z => f z = f x) :=
        List.mem_filter.mpr ⟨hy, by simp [hcontra]⟩
      rw [hnil] at this
      simp at this
    · intro b
      have hb := h b
      rw [List.filter_cons] at hb
      by_cases hfb : decide (f x = b) = true
      · rw [if_pos hfb] at hb
        simp only [List.length_cons] at hb
        omega
      · rw [if_neg hfb] at hb
        exact hb

/-- The duplicates the dedup loop collects for one date. -/
theorem dedupAulas_dups_filter (aulas : List CalendarioAula) (d : Nat) :
    ((deduplicarLoop (ativosOrdenados aulas) (fun _ => none) []).2).filter
        (fun a => a.data = d)
      = (keeperDe none (grupoData (ativosOrdenados aulas) d)).2 := by
  have h := (deduplicarLoop_spec (ativosOrdenados aulas) (fun _ => none) [] d
    (by intro d' ex h; cases h)).2
  simpa using h

/-- The id list the dedup pass soft-deletes. -/
def dedupIds (aulas : List CalendarioAula) : List Nat :=
  ((deduplicarLoop (ativosOrdenados aulas) (fun _ => none) []).2).map (fun a => a.id)

theorem dedupAulas_eq_map (aulas : List CalendarioAula) :
    (dedupAulas aulas).1 = aulas.map (fun a =>
      if a.id ∈ dedupIds aulas then { a with apagado := true } else a) := rfl

/-- Every collected duplicate is one of the class's stored rows. -/
theorem dedup_dups_mem (aulas : List CalendarioAula) (b : CalendarioAula)
    (hb : b ∈ (deduplicarLoop (ativosOrdenados aulas) (fun _ => none) []).2) :
    b ∈ aulas ∧ b.apagado = false := by
  have hbf : b ∈ ((deduplicarLoop (ativosOrdenados aulas) (fun _ => none) []).2).filter
      (fun a => a.data = b.data) := List.mem_filter.mpr ⟨hb, by simp⟩
  rw [dedupAulas_dups_filter] at hbf
  have hmem : b ∈ grupoData (ativosOrdenados aulas) b.data := by
    cases hG : grupoData (ativosOrdenados aulas) b.data with
    | nil =>
      rw [hG] at hbf
      simp [keeperDe] at hbf
    | cons y h =>
      rw [hG] at hbf
      simp only [keeperDe] at hbf
      have hbc : b ∈ (keeperFold y h).1 :: (keeperFold y h).2 := List.mem_cons_of_mem _ hbf
      exact (keeperFold_perm h y).mem_iff.mp hbc
  have hativo : b ∈ ativosOrdenados aulas := List.mem_of_mem_filter hmem
  have hflt : b ∈ aulas.filter (fun a => !a.apagado) :=
    (List.perm_insertionSort aulaLe _).mem_iff.mp hativo
  obtain ⟨hmem2, hpred⟩ := List.mem_filter.mp hflt
  exact ⟨hmem2, by simpa using hpred⟩

/-- On a date with no Active rows, dedup leaves no Active rows either. -/
theorem dedup_grupo_nil (aulas : List CalendarioAula) (d : Nat)
    (hG : grupoData (ativosOrdenados aulas) d = []) :
    grupoData (ativosOrdenados (dedupAulas aulas).1) d = [] := by
  have hGperm : (grupoData (ativosOrdenados aulas) d).Perm
      ((aulas.filter (fun a => !a.apagado)).filter (fun a => a.data = d)) :=
    (List.perm_insertionSort aulaLe _).filter _
  rw [hG] at hGperm
  have hraw : (aulas.filter (fun a => !a.apagado)).filter (fun a => a.data = d) = [] :=
    hGperm.symm.eq_nil
  have h2 : (dedupAulas aulas).1.filter (fun a => !a.apagado)
      = aulas.filter (fun a => !a.apagado && !(decide (a.id ∈ dedupIds aulas))) := by
    rw [dedupAulas_eq_map]
    exact filter_map_mark _ _
  have hperm : (grupoData (ativosOrdenados (dedupAulas aulas).1) d).Perm
      ((aulas.filter (fun a => !a.apagado && !(decide (a.id ∈ dedupIds aulas)))).filter
        (fun a => a.data = d)) := by
    show (((((dedupAulas aulas).1.filter (fun a => !a.apagado)).insertionSort aulaLe)).filter
        (fun a => a.data = d)).Perm _
    rw [h2]
    exact (List.perm_insertionSort aulaLe _).filter _
  apply List.eq_nil_iff_forall_not_mem.mpr
  intro a ha
  have haf := hperm.mem_iff.mp ha
  obtain ⟨ha1, ha2⟩ := List.mem_filter.mp haf
  obtain ⟨ha3, ha4⟩ := List.mem_filter.mp ha1
  have : a ∈ (aulas.filter (fun a => !a.apagado)).filter (fun a => a.data = d) :=
    List.mem_filter.mpr ⟨List.mem_filter.mpr ⟨ha3, by
      simp only [Bool.and_eq_true] at ha4
      exact ha4.1⟩, ha2⟩
  rw [hraw] at this
  simp at this

/-- On a date with Active rows `x :: g` (in `(data, id)` order), after dedup
the date's Active rows are exactly the one row `keeperFold` keeps. -/
theorem dedup_grupo_cons (aulas : List CalendarioAula)
    (hnodup : (aulas.map (fun a => a.id)).Nodup) (d : Nat)
    (x : CalendarioAula) (g : List CalendarioAula)
    (hG : grupoData (ativosOrdenados aulas) d = x :: g) :
    grupoData (ativosOrdenados (dedupAulas aulas).1) d = [(keeperFold x g).1] := by
  have haNodup : aulas.Nodup := hnodup.of_map _
  have h2 : (dedupAulas aulas).1.filter (fun a => !a.apagado)
      = aulas.filter (fun a => !a.apagado && !(decide (a.id ∈ dedupIds aulas))) := by
    rw [dedupAulas_eq_map]
    exact filter_map_mark _ _
  have hperm : (grupoData (ativosOrdenados (dedupAulas aulas).1) d).Perm
      ((aulas.filter (fun a => !a.apagado && !(decide (a.id ∈ dedupIds aulas)))).filter
        (fun a => a.data = d)) := by
    show (((((dedupAulas aulas).1.filter (fun a => !a.apagado)).insertionSort aulaLe)).filter
        (fun a => a.data = d)).Perm _
    rw [h2]
    exact (List.perm_insertionSort aulaLe _).filter _
  have hGperm : (grupoData (ativosOrdenados aulas) d).Perm
      ((aulas.filter (fun a => !a.apagado)).filter (fun a => a.data = d)) :=
    (List.perm_insertionSort aulaLe _).filter _
  have hkperm : ((keeperFold x g).1 :: (keeperFold x g).2).Perm
      (grupoData (ativosOrdenados aulas) d) := by
    rw [hG]; exact keeperFold_perm g x
  have hdups_d : ((deduplicarLoop (ativosOrdenados aulas) (fun _ => none) []).2).filter
      (fun a => a.data = d) = (keeperFold x g).2 := by
    rw [dedupAulas_dups_filter, hG]
    rfl
  have hGRnodup : ((aulas.filter (fun a => !a.apagado)).filter
      (fun a => a.data = d)).Nodup :=
    ((List.filter_sublist (aulas.filter (fun a => !a.apagado))).trans
      (List.filter_sublist aulas)).nodup haNodup
  have hGnodup : (grupoData (ativosOrdenados aulas) d).Nodup :=
    (hGperm.nodup_iff).mpr hGRnodup
  have hkdnodup : ((keeperFold x g).1 :: (keeperFold x g).2).Nodup :=
    (hkperm.nodup_iff).mpr hGnodup
  have hknotin : (keeperFold x g).1 ∉ (keeperFold x g).2 :=
    (List.nodup_cons.mp hkdnodup).1
  have hiff : ∀ a, a ∈ (aulas.filter (fun a => !a.apagado)).filter (fun a => a.data = d) →
      (a.id ∈ dedupIds aulas ↔ a ∈ (keeperFold x g).2) := by
    intro a ha
    have hadata : a.data = d := by
      have := (List.mem_filter.mp ha).2
      simpa using this
    constructor
    · intro hid
      obtain ⟨b, hbdups, hbid⟩ := List.mem_map.mp hid
      obtain ⟨hbaulas, _⟩ := dedup_dups_mem aulas b hbdups
      have haaulas : a ∈ aulas := List.mem_of_mem_filter (List.mem_of_mem_filter ha)
      have hab : a = b := id_inj aulas hnodup a haaulas b hbaulas hbid.symm
      rw [← hdups_d]
      exact List.mem_filter.mpr ⟨hab ▸ hbdups, by simp [← hab, hadata]⟩
    · intro hdrops
      rw [← hdups_d] at hdrops
      exact List.mem_map_of_mem _ (List.mem_of_mem_filter hdrops)
  have hstep1 : (aulas.filter (fun a => !a.apagado && !(decide (a.id ∈ dedupIds aulas)))).filter
        (fun a => a.data = d)
      = ((aulas.filter (fun a => !a.apagado)).filter (fun a => a.data = d)).filter
        (fun a => !(decide (a.id ∈ dedupIds aulas))) := by
    rw [List.filter_filter, List.filter_filter, List.filter_filter]
    congr 1
    funext a
    by_cases h1 : a.apagado <;> by_cases hi : a.id ∈ dedupIds aulas <;>
      by_cases h3 : a.data = d <;> simp [h1, hi, h3]
  have hchain : (grupoData (ativosOrdenados (dedupAulas aulas).1) d).Perm
      [(keeperFold x g).1] := by
    refine hperm.trans ?_
    rw [hstep1]
    have hcongr : ((aulas.filter (fun a => !a.apagado)).filter (fun a => a.data = d)).filter
          (fun a => !(decide (a.id ∈ dedupIds aulas)))
        = ((aulas.filter (fun a => !a.apagado)).filter (fun a => a.data = d)).filter
          (fun a => decide (a ∉ (keeperFold x g).2)) := by
      apply List.filter_congr
      intro a ha
      have hi := hiff a ha
      by_cases hP : a.id ∈ dedupIds aulas
      · simp [hP, hi.mp hP]
      · have hnot : a ∉ (keeperFold x g).2 := fun h => hP (hi.mpr h)
        simp [hP, hnot]
    rw [hcongr]
    refine ((hGperm.symm).filter _).trans ?_
    refine ((hkperm.filter _).symm).trans ?_
    rw [List.filter_cons, if_pos (by simp [hknotin])]
    have hrest : (keeperFold x g).2.filter (fun a => decide (a ∉ (keeperFold x g).2)) = [] := by
      apply List.filter_eq_nil_iff.mpr
      intro b hbmem
      simp [hbmem]
    rw [hrest]
  exact List.perm_singleton.mp hchain

/-- C5: after the Deduplicator runs on a class (with distinct primary keys),
no two Active lessons share a date; on each date that had Active rows the row
kept is the first row in `(data, id)` order with a non-blank free-text
summary, or the first row when none has one; and every other Active row of
that date is soft-deleted (kept in the store with `apagado := true`). -/
theorem C5_dedup_unique_dates_keeps_summary (db : DB)
    (hnodup : (db.aulas.map (fun a => a.id)).Nodup) :
    (∀ d x g, grupoData (aulasAtivas db) d = x :: g →
       grupoData (aulasAtivas (deduplicar_calendario_turma db).1) d
         = [(((x :: g).find? temSumario).getD x)]) ∧
    ((aulasAtivas (deduplicar_calendario_turma db).1).Pairwise
       (fun a b => a.data ≠ b.data)) ∧
    (∀ b ∈ aulasAtivas db, ∀ x g, grupoData (aulasAtivas db) b.data = x :: g →
       b ≠ (((x :: g).find? temSumario).getD x) →
       { b with apagado := true } ∈ (deduplicar_calendario_turma db).1.aulas) := by
  refine ⟨?_, ?_, ?_⟩
  · intro d x g hG
    have h := dedup_grupo_cons db.aulas hnodup d x g hG
    rw [keeperFold_keeper g x] at h
    exact h
  · refine pairwise_ne_of_counts (fun a : CalendarioAula => a.data)
      (aulasAtivas (deduplicar_calendario_turma db).1) ?_
    intro b
    cases hG : grupoData (aulasAtivas db) b with
    | nil =>
      have h : grupoData (aulasAtivas (deduplicar_calendario_turma db).1) b = [] :=
        dedup_grupo_nil db.aulas b hG
      show (grupoData (aulasAtivas (deduplicar_calendario_turma db).1) b).length ≤ 1
      rw [h]
      simp
    | cons x g =>
      have h : grupoData (aulasAtivas (deduplicar_calendario_turma db).1) b
          = [(keeperFold x g).1] :=
        dedup_grupo_cons db.aulas hnodup b x g hG
      show (grupoData (aulasAtivas (deduplicar_calendario_turma db).1) b).length ≤ 1
      rw [h]
      simp
  · intro b hb x g hG hne
    have hbg : b ∈ grupoData (aulasAtivas db) b.data :=
      List.mem_filter.mpr ⟨hb, by simp⟩
    rw [hG] at hbg
    have hbkd : b ∈ (keeperFold x g).1 :: (keeperFold x g).2 :=
      (keeperFold_perm g x).mem_iff.mpr hbg
    have hbk : b ≠ (keeperFold x g).1 := by
      rw [keeperFold_keeper g x]
      exact hne
    have hbdrops : b ∈ (keeperFold x g).2 := by
      rcases List.mem_cons.mp hbkd with h | h
      · exact absurd h hbk
      · exact h
    have hbdups : b ∈ (deduplicarLoop (ativosOrdenados db.aulas) (fun _ => none) []).2 := by
      have : b ∈ ((deduplicarLoop (ativosOrdenados db.aulas) (fun _ => none) []).2).filter
          (fun a => a.data = b.data) := by
        have hG2 : grupoData (ativosOrdenados db.aulas) b.data = x :: g := hG
        rw [dedupAulas_dups_filter, hG2]
        exact hbdrops
      exact List.mem_of_mem_filter this
    have hbid : b.id ∈ dedupIds db.aulas := List.mem_map_of_mem _ hbdups
    have hbaulas : b ∈ db.aulas := by
      have := (List.perm_insertionSort aulaLe _).mem_iff.mp hb
      exact List.mem_of_mem_filter this
    show { b with apagado := true } ∈ (dedupAulas db.aulas).1
    rw [dedupAulas_eq_map]
    exact List.mem_map.mpr ⟨b, hbaulas, by rw [if_pos hbid]⟩

/-- C5 witness store: two Active rows on day 3 (the second carries the
summary) and one on day 5. -/
def dbC5 : DB :=
  { turma := none, ano := none, periodos := [], modulos := [], horarios := [],
    interrupcoes := [], feriados := [],
    aulas :=
      [⟨1, 1, 3, 3, none, none, none, ["1"], none, "normal", false, some 0⟩,
       ⟨2, 1, 3, 3, none, none, none, ["2"], some "Sumário dado", "normal", false, some 0⟩,
       ⟨3, 1, 5, 5, none, none, none, ["3"], none, "normal", false, some 0⟩],
    nextAulaId := 4, nextModuloId := 1 }

theorem C5_witness :
    ((aulasAtivas (deduplicar_calendario_turma dbC5).1).Pairwise
       (fun a b => a.data ≠ b.data)) ∧
    grupoData (aulasAtivas (deduplicar_calendario_turma dbC5).1) 3
      = [(((aulasAtivas dbC5).filter (fun a => a.data = 3)).find? temSumario).getD
          (⟨1, 1, 3, 3, none, none, none, ["1"], none, "normal", false, some 0⟩)] := by
  constructor
  · exact (C5_dedup_unique_dates_keeps_summary dbC5 (by decide)).2.1
  · have h := (C5_dedup_unique_dates_keeps_summary dbC5 (by decide)).1 3
      (⟨1, 1, 3, 3, none, none, none, ["1"], none, "normal", false, some 0⟩)
      [⟨2, 1, 3, 3, none, none, none, ["2"], some "Sumário dado", "normal", false, some 0⟩]
      (by decide)
    rw [h]
    decide

/-! ### Renumbering: idempotence machinery -/

/-- Strict `(data, id)` order. -/
def aulaLt (a b : CalendarioAula) : Prop :=
  a.data < b.data ∨ (a.data = b.data ∧ a.id < b.id)

instance : DecidableRel aulaLt := fun a b => by unfold aulaLt; infer_instance

instance : IsTotal CalendarioAula aulaLe := ⟨by intro a b; unfold aulaLe; omega⟩

instance : IsTrans CalendarioAula aulaLe := ⟨by intro a b c; unfold aulaLe; omega⟩

instance : IsAntisymm CalendarioAula aulaLt :=
  ⟨by intro a b hab hba; exfalso; unfold aulaLt at hab hba; omega⟩

/-- With distinct ids, the sort is strictly increasing in `(data, id)`. -/
theorem sortAulas_pairwise_lt (l : List CalendarioAula)
    (h : (l.map (fun a => a.id)).Nodup) :
    List.Pairwise aulaLt (sortAulas l) := by
  have hle : List.Pairwise aulaLe (sortAulas l) :=
    List.sorted_insertionSort aulaLe l
  have hids : ((sortAulas l).map (fun a => a.id)).Nodup := by
    have hp : (sortAulas l).Perm l := List.perm_insertionSort aulaLe l
    exact ((hp.map (fun a => a.id)).nodup_iff).mpr h
  have hne : List.Pairwise (fun a b : CalendarioAula => a.id ≠ b.id) (sortAulas l) :=
    List.pairwise_map.mp hids
  exact (hle.and hne).imp (by intro a b hab; unfold aulaLe at hab; unfold aulaLt; omega)

/-- The renumbering pass rewrites rows in place: ids, dates, deletion flags,
types and module links are all preserved positionally. -/
theorem renumerarPasso_fields (tipos : List String) :
    ∀ (l : List CalendarioAula) (g : Nat) (p : Nat → Nat),
    List.Forall₂ (fun a b => a.id = b.id ∧ a.data = b.data ∧ a.apagado = b.apagado)
      l (renumerarPasso tipos l g p) := by
  intro l
  induction l with
  | nil => intro g p; exact List.Forall₂.nil
  | cons a rest ih =>
    intro g p
    refine List.Forall₂.cons ?_ (ih _ _)
    refine ⟨rfl, rfl, rfl⟩

/-- Each member of the right list of a `Forall₂` has a related left member. -/
theorem forall2_mem_right {R : CalendarioAula → CalendarioAula → Prop} :
    ∀ {l l' : List CalendarioAula}, List.Forall₂ R l l' →
    ∀ b' ∈ l', ∃ a ∈ l, R a b' := by
  intro l l' hf
  induction hf with
  | nil => simp
  | cons hxy htl ih =>
    intro b' hb'
    rcases List.mem_cons.mp hb' with rfl | hmem
    · exact ⟨_, List.mem_cons_self _ _, hxy⟩
    · obtain ⟨a, ha, hr⟩ := ih b' hmem
      exact ⟨a, List.mem_cons_of_mem _ ha, hr⟩

/-- Transfer a binary property along positional field preservation. -/
theorem forall2_pairwise_transfer {R : CalendarioAula → CalendarioAula → Prop}
    (hR : ∀ a b a' b', a.id = a'.id → a.data = a'.data → R a b →
      b.id = b'.id → b.data = b'.data → R a' b') :
    ∀ {l l' : List CalendarioAula},
    List.Forall₂ (fun a b => a.id = b.id ∧ a.data = b.data ∧ a.apagado = b.apagado) l l' →
    List.Pairwise R l → List.Pairwise R l' := by
  intro l l' hf
  induction hf with
  | nil => intro _; exact List.Pairwise.nil
  | cons hab htail ih =>
    intro hp
    obtain ⟨hhead, hptail⟩ := List.pairwise_cons.mp hp
    refine List.pairwise_cons.mpr ⟨?_, ih hptail⟩
    intro b' hb'
    obtain ⟨b, hbmem, hbfields⟩ := forall2_mem_right htail b' hb'
    exact hR _ b _ b' hab.1 hab.2.1 (hhead b hbmem) hbfields.1 hbfields.2.1

/-- `find?` by id returns the row itself when ids are distinct. -/
theorem find_self_of_nodup (l : List CalendarioAula)
    (h : (l.map (fun a => a.id)).Nodup) (r : CalendarioAula) (hr : r ∈ l) :
    l.find? (fun b => b.id = r.id) = some r := by
  induction l with
  | nil => simp at hr
  | cons x rest ih =>
    simp only [List.map_cons, List.nodup_cons] at h
    rcases List.mem_cons.mp hr with rfl | hmem
    · rw [List.find?_cons_of_pos _ (by simp)]
    · have hxid : x.id ≠ r.id := by
        intro he
        exact h.1 (he ▸ List.mem_map_of_mem (fun a => a.id) hmem)
      rw [List.find?_cons_of_neg _ (by simpa using hxid)]
      exact ih h.2 hmem

/-- A list is empty when every date-filter of it is empty. -/
theorem eq_nil_of_filters (l : List CalendarioAula)
    (h : ∀ d, l.filter (fun a => a.data = d) = []) : l = [] := by
  cases l with
  | nil => rfl
  | cons a rest =>
    have := h a.data
    rw [List.filter_cons, if_pos (by simp)] at this
    cases this

/-- If the values of `f` are pairwise distinct along `l`, each value occurs at
most once. -/
theorem counts_le_one_of_pairwise {α β : Type} [DecidableEq β] (f : α → β) :
    ∀ l : List α, l.Pairwise (fun x y => f x ≠ f y) →
      ∀ b, (l.filter (fun x => f x = b)).length ≤ 1 := by
  intro l
  induction l with
  | nil => intro _ b; simp
  | cons x rest ih =>
    intro hp b
    obtain ⟨hhead, hptail⟩ := List.pairwise_cons.mp hp
    rw [List.filter_cons]
    by_cases hb : decide (f x = b) = true
    · rw [if_pos hb]
      have : rest.filter (fun y => f y = b) = [] := by
        apply List.filter_eq_nil_iff.mpr
        intro y hy
        have h1 : f x ≠ f y := hhead y hy
        simp only [decide_eq_true_eq] at hb
        simp [hb ▸ h1.symm]
      rw [this]
      simp
    · rw [if_neg hb]
      exact ih hptail b

/-- Digit characters are never Python whitespace. -/
theorem pyWhitespace_digitChar (n : Nat) : pyWhitespace (Nat.digitChar n) = false := by
  match n with
  | 0 => decide
  | 1 => decide
  | 2 => decide
  | 3 => decide
  | 4 => decide
  | 5 => decide
  | 6 => decide
  | 7 => decide
  | 8 => decide
  | 9 => decide
  | 10 => decide
  | 11 => decide
  | 12 => decide
  | 13 => decide
  | 14 => decide
  | 15 => decide
  | n + 16 =>
    unfold Nat.digitChar
    repeat rw [if_neg (by omega)]
    decide

/-- All characters produced by `Nat.toDigitsCore` are non-whitespace. -/
theorem toDigitsCore_no_ws (b : Nat) :
    ∀ (f n : Nat) (acc : List Char), (∀ c ∈ acc, pyWhitespace c = false) →
    ∀ c ∈ Nat.toDigitsCore b f n acc, pyWhitespace c = false := by
  intro f
  induction f with
  | zero =>
    intro n acc hacc c hc
    simp only [Nat.toDigitsCore] at hc
    exact hacc c hc
  | succ f ih =>
    intro n acc hacc c hc
    simp only [Nat.toDigitsCore] at hc
    split at hc
    · rcases List.mem_cons.mp hc with rfl | hmem
      · exact pyWhitespace_digitChar _
      · exact hacc c hmem
    · refine ih _ _ ?_ c hc
      intro c' hc'
      rcases List.mem_cons.mp hc' with rfl | hmem
      · exact pyWhitespace_digitChar _
      · exact hacc c' hmem

/-- `Nat.toDigitsCore` never empties a non-empty accumulator. -/
theorem toDigitsCore_ne_nil (b : Nat) :
    ∀ (f n : Nat) (acc : List Char), acc ≠ [] → Nat.toDigitsCore b f n acc ≠ [] := by
  intro f
  induction f with
  | zero =>
    intro n acc hacc
    simpa only [Nat.toDigitsCore] using hacc
  | succ f ih =>
    intro n acc hacc
    simp only [Nat.toDigitsCore]
    split
    · simp
    · exact ih _ _ (by simp)

/-- Stripping leaves a whitespace-free list unchanged. -/
theorem stripChars_of_no_ws (l : List Char) (h : ∀ c ∈ l, pyWhitespace c = false) :
    stripChars l = l := by
  have hdrop : ∀ m : List Char, (∀ c ∈ m, pyWhitespace c = false) →
      m.dropWhile pyWhitespace = m := by
    intro m hm
    cases m with
    | nil => rfl
    | cons c cs =>
      rw [List.dropWhile_cons, if_neg (by simp [hm c (List.mem_cons_self c cs)])]
  unfold stripChars
  rw [hdrop l h, hdrop l.reverse (by intro c hc; exact h c (List.mem_reverse.mp hc)),
    List.reverse_reverse]

/-- A numeral summary code is a non-blank entry. -/
theorem toString_nat_nonblank (n : Nat) : stripChars (toString n).data ≠ [] := by
  have h1 : (toString n).data = Nat.toDigitsCore 10 (n + 1) n [] := rfl
  rw [h1, stripChars_of_no_ws _ (toDigitsCore_no_ws 10 (n + 1) n [] (by simp))]
  simp only [Nat.toDigitsCore]
  split
  · simp
  · exact toDigitsCore_ne_nil 10 _ _ _ (by simp)

/-- Row equality from field equality. -/
theorem aulaExt (x y : CalendarioAula) (h1 : x.id = y.id) (h2 : x.periodo_id = y.periodo_id)
    (h3 : x.data = y.data) (h4 : x.weekday = y.weekday) (h5 : x.modulo_id = y.modulo_id)
    (h6 : x.numero_modulo = y.numero_modulo) (h7 : x.total_geral = y.total_geral)
    (h8 : x.sumarios = y.sumarios) (h9 : x.sumario = y.sumario) (h10 : x.tipo = y.tipo)
    (h11 : x.apagado = y.apagado) (h12 : x.tempos_sem_aula = y.tempos_sem_aula) : x = y := by
  cases x; cases y; simp_all

/-- Re-running the per-row renumbering step on its own output changes nothing,
provided the row is special or its clamped non-lesson count is strictly below
its slot total (i.e. the step gave it a positive net). -/
theorem renumerarAula_idem (tipos : List String) (g : Nat) (prog : Nat → Nat)
    (a : CalendarioAula)
    (hc : a.tipo ∈ tipos ∨ faltasRenumeracao tipos a < _total_previsto_para_aula a) :
    renumerarAula tipos g prog ((renumerarAula tipos g prog a).1)
      = renumerarAula tipos g prog a := by
  have htipo : (renumerarAula tipos g prog a).1.tipo = a.tipo := rfl
  have hmid : (renumerarAula tipos g prog a).1.modulo_id = a.modulo_id := rfl
  by_cases hmem : a.tipo ∈ tipos
  · -- special type: net 0, codes cleared, stored count is the clamp
    have hq : quantidadeRenumeracao tipos a = 0 := by simp [quantidadeRenumeracao, hmem]
    have hf0 : 0 ≤ faltasRenumeracao tipos a := by
      simp only [faltasRenumeracao]; exact le_max_left _ _
    have hs : (renumerarAula tipos g prog a).1.sumarios = [] := by
      show (if 0 < quantidadeRenumeracao tipos a then _ else []) = []
      rw [hq]
      simp
    have ht : (renumerarAula tipos g prog a).1.tempos_sem_aula
        = some (faltasRenumeracao tipos a) := by
      show some (if a.tipo ∈ tipos then faltasRenumeracao tipos a else 0) = _
      rw [if_pos hmem]
    have hmem' : (renumerarAula tipos g prog a).1.tipo ∈ tipos := htipo ▸ hmem
    have htot' : _total_previsto_para_aula (renumerarAula tipos g prog a).1
        = max (max 1 (faltasRenumeracao tipos a)) 1 := by
      unfold _total_previsto_para_aula
      rw [hs, ht]
      simp
    have hf' : faltasRenumeracao tipos (renumerarAula tipos g prog a).1
        = faltasRenumeracao tipos a := by
      simp only [faltasRenumeracao, _total_previsto_para_aula, hs, ht, hmem', if_true,
        List.filter_nil, List.length_nil, Option.getD_some]
      omega
    have hq' : quantidadeRenumeracao tipos (renumerarAula tipos g prog a).1 = 0 := by
      simp [quantidadeRenumeracao, hmem']
    show (_, _, _) = (_, _, _)
    refine Prod.ext ?_ (Prod.ext ?_ ?_)
    · refine aulaExt _ _ rfl rfl rfl rfl rfl ?_ ?_ ?_ rfl rfl rfl ?_
      · show (match (renumerarAula tipos g prog a).1.modulo_id with
            | some m => some ((prog m + quantidadeRenumeracao tipos
                (renumerarAula tipos g prog a).1 : Nat) : Int)
            | none => none)
          = (renumerarAula tipos g prog a).1.numero_modulo
        rw [hmid, hq']
        show _ = (match a.modulo_id with
            | some m => some ((prog m + quantidadeRenumeracao tipos a : Nat) : Int)
            | none => none)
        rw [hq]
      · show some ((g + quantidadeRenumeracao tipos (renumerarAula tipos g prog a).1 : Nat)
            : Int) = (renumerarAula tipos g prog a).1.total_geral
        rw [hq']
        show _ = some ((g + quantidadeRenumeracao tipos a : Nat) : Int)
        rw [hq]
      · show (if 0 < quantidadeRenumeracao tipos (renumerarAula tipos g prog a).1 then _
            else []) = (renumerarAula tipos g prog a).1.sumarios
        rw [hq', hs]
        simp
      · show some (if (renumerarAula tipos g prog a).1.tipo ∈ tipos then
            faltasRenumeracao tipos (renumerarAula tipos g prog a).1 else 0)
          = (renumerarAula tipos g prog a).1.tempos_sem_aula
        rw [if_pos hmem', hf', ht]
    · show g + quantidadeRenumeracao tipos (renumerarAula tipos g prog a).1
        = g + quantidadeRenumeracao tipos a
      rw [hq', hq]
    · show (match (renumerarAula tipos g prog a).1.modulo_id with
          | some m => fun j => if j = m then prog m + quantidadeRenumeracao tipos
              (renumerarAula tipos g prog a).1 else prog j
          | none => prog)
        = (match a.modulo_id with
          | some m => fun j => if j = m then prog m + quantidadeRenumeracao tipos a
              else prog j
          | none => prog)
      rw [hmid, hq', hq]
  · -- non-special type with positive net
    have hlt : faltasRenumeracao tipos a < _total_previsto_para_aula a :=
      hc.resolve_left hmem
    have hq : (quantidadeRenumeracao tipos a : Int)
        = _total_previsto_para_aula a - faltasRenumeracao tipos a := by
      simp only [quantidadeRenumeracao, hmem, if_false]
      exact Int.toNat_of_nonneg (by omega)
    have hqpos : 0 < quantidadeRenumeracao tipos a := by omega
    have hs : (renumerarAula tipos g prog a).1.sumarios
        = (List.range' (g + 1) (quantidadeRenumeracao tipos a)).map (fun n => toString n) := by
      show (if 0 < quantidadeRenumeracao tipos a then _ else []) = _
      rw [if_pos hqpos]
    have ht : (renumerarAula tipos g prog a).1.tempos_sem_aula = some 0 := by
      show some (if a.tipo ∈ tipos then faltasRenumeracao tipos a else 0) = some 0
      rw [if_neg hmem]
    have hmem' : (renumerarAula tipos g prog a).1.tipo ∉ tipos := by
      rw [htipo]; exact hmem
    have hall : ∀ s ∈ (List.range' (g + 1) (quantidadeRenumeracao tipos a)).map
        (fun n => toString n), (decide (stripChars s.data ≠ []) = true) := by
      intro s hsm
      obtain ⟨n, _, rfl⟩ := List.mem_map.mp hsm
      simpa using toString_nat_nonblank n
    have hlen : (((List.range' (g + 1) (quantidadeRenumeracao tipos a)).map
          (fun n => toString n)).filter (fun s => stripChars s.data ≠ [])).length
        = quantidadeRenumeracao tipos a := by
      rw [List.filter_eq_self.mpr hall]
      simp
    have htot' : _total_previsto_para_aula (renumerarAula tipos g prog a).1
        = (quantidadeRenumeracao tipos a : Int) := by
      simp only [_total_previsto_para_aula, hs, ht, Option.getD_some]
      rw [hlen, if_neg (by omega)]
      omega
    have hf' : faltasRenumeracao tipos (renumerarAula tipos g prog a).1 = 0 := by
      simp only [faltasRenumeracao, hmem', if_false, ht, Option.getD_some]
      rw [htot']
      omega
    have hq' : quantidadeRenumeracao tipos (renumerarAula tipos g prog a).1
        = quantidadeRenumeracao tipos a := by
      simp only [quantidadeRenumeracao, hmem, hmem', if_false]
      rw [hf', htot']
      omega
    show (_, _, _) = (_, _, _)
    refine Prod.ext ?_ (Prod.ext ?_ ?_)
    · refine aulaExt _ _ rfl rfl rfl rfl rfl ?_ ?_ ?_ rfl rfl rfl ?_
      · show (match (renumerarAula tipos g prog a).1.modulo_id with
            | some m => some ((prog m + quantidadeRenumeracao tipos
                (renumerarAula tipos g prog a).1 : Nat) : Int)
            | none => none)
          = (renumerarAula tipos g prog a).1.numero_modulo
        rw [hmid, hq']
        rfl
      · show some ((g + quantidadeRenumeracao tipos (renumerarAula tipos g prog a).1 : Nat)
            : Int) = (renumerarAula tipos g prog a).1.total_geral
        rw [hq']
        rfl
      · show (if 0 < quantidadeRenumeracao tipos (renumerarAula tipos g prog a).1 then
            (List.range' (g + 1) (quantidadeRenumeracao tipos
              (renumerarAula tipos g prog a).1)).map (fun n => toString n)
            else []) = (renumerarAula tipos g prog a).1.sumarios
        rw [hq', if_pos hqpos, hs]
      · show some (if (renumerarAula tipos g prog a).1.tipo ∈ tipos then
            faltasRenumeracao tipos (renumerarAula tipos g prog a).1 else 0)
          = (renumerarAula tipos g prog a).1.tempos_sem_aula
        rw [if_neg hmem', ht]
    · show g + quantidadeRenumeracao tipos (renumerarAula tipos g prog a).1
        = g + quantidadeRenumeracao tipos a
      rw [hq']
    · show (match (renumerarAula tipos g prog a).1.modulo_id with
          | some m => fun j => if j = m then prog m + quantidadeRenumeracao tipos
              (renumerarAula tipos g prog a).1 else prog j
          | none => prog)
        = (match a.modulo_id with
          | some m => fun j => if j = m then prog m + quantidadeRenumeracao tipos a
              else prog j
          | none => prog)
      rw [hmid, hq']

/-- Re-running the whole renumbering pass on its own output is the identity,
provided every input row is special or gets a positive net. -/
theorem renumerarPasso_idem (tipos : List String) :
    ∀ (l : List CalendarioAula) (g : Nat) (p : Nat → Nat),
    (∀ a ∈ l, a.tipo ∈ tipos ∨ faltasRenumeracao tipos a < _total_previsto_para_aula a) →
    renumerarPasso tipos (renumerarPasso tipos l g p) g p = renumerarPasso tipos l g p := by
  intro l
  induction l with
  | nil => intro g p _; rfl
  | cons a rest ih =>
    intro g p hcond
    have hstep := renumerarAula_idem tipos g p a (hcond a (List.mem_cons_self a rest))
    simp only [renumerarPasso]
    rw [hstep]
    congr 1
    exact ih _ _ (fun b hb => hcond b (List.mem_cons_of_mem a hb))

/-- Looking each row of the pass's input up in the pass's output by id
reconstructs the output, when ids are distinct. -/
theorem renumerarPasso_lookup (tipos : List String) :
    ∀ (l : List CalendarioAula) (g : Nat) (p : Nat → Nat),
    ((l.map (fun a => a.id)).Nodup) →
    l.map (fun a => ((renumerarPasso tipos l g p).find? (fun b => b.id = a.id)).getD a)
      = renumerarPasso tipos l g p := by
  intro l
  induction l with
  | nil => intro g p _; rfl
  | cons a rest ih =>
    intro g p hnodup
    simp only [List.map_cons, List.nodup_cons] at hnodup
    simp only [renumerarPasso, List.map_cons]
    have hhid : (renumerarAula tipos g p a).1.id = a.id := rfl
    congr 1
    · rw [List.find?_cons_of_pos _ (by simp [hhid])]
      rfl
    · have hrw : ∀ x ∈ rest,
          (((renumerarAula tipos g p a).1 :: renumerarPasso tipos rest
              (renumerarAula tipos g p a).2.1 (renumerarAula tipos g p a).2.2).find?
            (fun b => b.id = x.id)).getD x
          = ((renumerarPasso tipos rest (renumerarAula tipos g p a).2.1
              (renumerarAula tipos g p a).2.2).find? (fun b => b.id = x.id)).getD x := by
        intro x hx
        have hxid : a.id ≠ x.id := by
          intro he
          exact hnodup.1 (he ▸ List.mem_map_of_mem (fun a => a.id) hx)
        rw [List.find?_cons_of_neg _ (by simp [hhid]; exact hxid)]
      rw [List.map_congr_left hrw]
      exact ih _ _ hnodup.2

/-- The pass keeps rows Active. -/
theorem renumerarPasso_apagado (tipos : List String) (l : List CalendarioAula)
    (g : Nat) (p : Nat → Nat) (h : ∀ a ∈ l, a.apagado = false) :
    ∀ b ∈ renumerarPasso tipos l g p, b.apagado = false := by
  intro b hb
  obtain ⟨a, ha, hf⟩ := forall2_mem_right (renumerarPasso_fields tipos l g p) b hb
  rw [← hf.2.2]
  exact h a ha

/-- The pass preserves the id sequence. -/
theorem renumerarPasso_ids (tipos : List String) :
    ∀ (l : List CalendarioAula) (g : Nat) (p : Nat → Nat),
    (renumerarPasso tipos l g p).map (fun a => a.id) = l.map (fun a => a.id) := by
  intro l
  induction l with
  | nil => intro g p; rfl
  | cons a rest ih =>
    intro g p
    simp only [renumerarPasso, List.map_cons]
    rw [ih]
    rfl

/-- The by-id lookup preserves the id. -/
theorem lookup_id (proc : List CalendarioAula) (a : CalendarioAula) :
    ((proc.find? (fun b => b.id = a.id)).getD a).id = a.id := by
  cases hf : proc.find? (fun b => b.id = a.id) with
  | none => rfl
  | some b =>
    have := List.find?_some hf
    simp only [Option.getD_some]
    simpa using this

/-- Keeping Active rows commutes with the renumber write-back. -/
theorem filter_map_lookup (proc : List CalendarioAula)
    (hproc : ∀ b ∈ proc, b.apagado = false) :
    ∀ l : List CalendarioAula,
    (l.map (fun a => if a.apagado then a
        else ((proc.find? (fun b => b.id = a.id)).getD a))).filter (fun a => !a.apagado)
      = (l.filter (fun a => !a.apagado)).map
          (fun a => ((proc.find? (fun b => b.id = a.id)).getD a)) := by
  intro l
  induction l with
  | nil => rfl
  | cons a rest ih =>
    by_cases hap : a.apagado
    · simp [List.filter_cons, hap, ih]
    · have hga : (((proc.find? (fun b => b.id = a.id)).getD a)).apagado = false := by
        cases hf : proc.find? (fun b => b.id = a.id) with
        | none => simpa using hap
        | some b =>
          simp only [Option.getD_some]
          exact hproc b (List.mem_of_find?_eq_some hf)
      simp [List.filter_cons, hap, hga, ih]

/-- Mapping a pointwise-identity function is the identity. -/
theorem map_self_of_eq (l : List CalendarioAula) (f : CalendarioAula → CalendarioAula)
    (h : ∀ a ∈ l, f a = a) : l.map f = l := by
  induction l with
  | nil => rfl
  | cons a rest ih =>
    simp only [List.map_cons, h a (List.mem_cons_self a rest)]
    rw [ih (fun b hb => h b (List.mem_cons_of_mem a hb))]

/-- After dedup, Active rows carry pairwise-distinct dates (list level). -/
theorem dedup_datas_pairwise (aulas : List CalendarioAula)
    (hnodup : (aulas.map (fun a => a.id)).Nodup) :
    List.Pairwise (fun a b : CalendarioAula => a.data ≠ b.data)
      (ativosOrdenados (dedupAulas aulas).1) := by
  refine pairwise_ne_of_counts (fun a : CalendarioAula => a.data)
    (ativosOrdenados (dedupAulas aulas).1) ?_
  intro b
  cases hG : grupoData (ativosOrdenados aulas) b with
  | nil =>
    have h := dedup_grupo_nil aulas b hG
    show (grupoData (ativosOrdenados (dedupAulas aulas).1) b).length ≤ 1
    rw [h]
    simp
  | cons x g =>
    have h := dedup_grupo_cons aulas hnodup b x g hG
    show (grupoData (ativosOrdenados (dedupAulas aulas).1) b).length ≤ 1
    rw [h]
    simp

/-- When the Active rows already have pairwise-distinct dates, dedup is the
identity on the store. -/
theorem dedupAulas_noop (l : List CalendarioAula)
    (hp : List.Pairwise (fun a b : CalendarioAula => a.data ≠ b.data) (ativosOrdenados l)) :
    (dedupAulas l).1 = l := by
  have hc := counts_le_one_of_pairwise (fun a : CalendarioAula => a.data)
    (ativosOrdenados l) hp
  have hdups : (deduplicarLoop (ativosOrdenados l) (fun _ => none) []).2 = [] := by
    apply eq_nil_of_filters
    intro d
    rw [dedupAulas_dups_filter]
    have hcd := hc d
    cases hG : grupoData (ativosOrdenados l) d with
    | nil => rfl
    | cons x gtl =>
      have hgtl : gtl = [] := by
        have hcd' : (grupoData (ativosOrdenados l) d).length ≤ 1 := hcd
        rw [hG] at hcd'
        simp only [List.length_cons] at hcd'
        exact List.eq_nil_of_length_eq_zero (by omega)
      subst hgtl
      rfl
  rw [dedupAulas_eq_map]
  unfold dedupIds
  rw [hdups]
  apply map_self_of_eq
  intro a _
  simp

/-- Under distinct row ids, and a positive net for every Active non-special
row, the row-level renumbering is a fixpoint of itself. -/
theorem renumerarAulas_fixpoint (tipos : List String) (aulas : List CalendarioAula)
    (hnodup : (aulas.map (fun a => a.id)).Nodup)
    (hcond : ∀ a ∈ aulas, a.apagado = false → a.tipo ∉ tipos →
      faltasRenumeracao tipos a < _total_previsto_para_aula a) :
    (renumerarAulas (renumerarAulas aulas tipos).1 tipos).1
      = (renumerarAulas aulas tipos).1 := by
  set A1 := (dedupAulas aulas).1 with hA1def
  set ativ1 := ativosOrdenados A1 with hativdef
  set proc := renumerarPasso tipos ativ1 0 (fun _ => 0) with hprocdef
  have hfa : (A1.filter (fun a => !a.apagado))
      = aulas.filter (fun a => !a.apagado && !(decide (a.id ∈ dedupIds aulas))) := by
    rw [hA1def, dedupAulas_eq_map]
    exact filter_map_mark aulas (dedupIds aulas)
  have hids1 : A1.map (fun a => a.id) = aulas.map (fun a => a.id) := by
    rw [hA1def, dedupAulas_eq_map, List.map_map]
    apply List.map_congr_left
    intro a _
    by_cases h : a.id ∈ dedupIds aulas <;> simp [Function.comp, h]
  have hnodup1 : (A1.map (fun a => a.id)).Nodup := by
    rw [hids1]; exact hnodup
  have hnodupF : ((A1.filter (fun a => !a.apagado)).map (fun a => a.id)).Nodup := by
    have hsub : (A1.filter (fun a => !a.apagado)).Sublist A1 := List.filter_sublist A1
    exact List.Nodup.sublist (hsub.map (fun a => a.id)) hnodup1
  have hpermA : ativ1.Perm (A1.filter (fun a => !a.apagado)) := by
    rw [hativdef]
    exact List.perm_insertionSort aulaLe _
  have hnodupA : (ativ1.map (fun a => a.id)).Nodup :=
    ((hpermA.map (fun a => a.id)).nodup_iff).mpr hnodupF
  have hativd : List.Pairwise (fun a b : CalendarioAula => a.data ≠ b.data) ativ1 :=
    dedup_datas_pairwise aulas hnodup
  have hativlt : List.Pairwise aulaLt ativ1 := by
    rw [hativdef]
    exact sortAulas_pairwise_lt _ hnodupF
  have hax : ∀ a ∈ ativ1, a ∈ aulas ∧ a.apagado = false := by
    intro a ha
    have ha' := hpermA.mem_iff.mp ha
    rw [hfa] at ha'
    have hm := List.mem_filter.mp ha'
    refine ⟨hm.1, ?_⟩
    have h2 := hm.2
    simp only [Bool.and_eq_true, Bool.not_eq_true'] at h2
    exact h2.1
  have hactive1 : ∀ a ∈ ativ1, a.apagado = false := fun a ha => (hax a ha).2
  have hcond1 : ∀ a ∈ ativ1,
      a.tipo ∈ tipos ∨ faltasRenumeracao tipos a < _total_previsto_para_aula a := by
    intro a ha
    by_cases hm : a.tipo ∈ tipos
    · exact Or.inl hm
    · exact Or.inr (hcond a (hax a ha).1 (hax a ha).2 hm)
  have hfields : List.Forall₂
      (fun a b => a.id = b.id ∧ a.data = b.data ∧ a.apagado = b.apagado) ativ1 proc := by
    rw [hprocdef]
    exact renumerarPasso_fields tipos ativ1 0 (fun _ => 0)
  have hprocd : List.Pairwise (fun a b : CalendarioAula => a.data ≠ b.data) proc := by
    refine forall2_pairwise_transfer ?_ hfields hativd
    intro a b a' b' h1 h2 h3 h4 h5
    rw [← h2, ← h5]; exact h3
  have hproclt : List.Pairwise aulaLt proc := by
    refine forall2_pairwise_transfer ?_ hfields hativlt
    intro a b a' b' h1 h2 h3 h4 h5
    unfold aulaLt at h3 ⊢
    omega
  have hprocapag : ∀ b ∈ proc, b.apagado = false := by
    rw [hprocdef]
    exact renumerarPasso_apagado tipos ativ1 0 (fun _ => 0) hactive1
  have hprocids : proc.map (fun a => a.id) = ativ1.map (fun a => a.id) := by
    rw [hprocdef]
    exact renumerarPasso_ids tipos ativ1 0 (fun _ => 0)
  have hlookup : ativ1.map
      (fun a => ((proc.find? (fun b => b.id = a.id)).getD a)) = proc := by
    rw [hprocdef]
    exact renumerarPasso_lookup tipos ativ1 0 (fun _ => 0) hnodupA
  have hpermgg : ((A1.filter (fun a => !a.apagado)).map
      (fun a => ((proc.find? (fun b => b.id = a.id)).getD a))).Perm proc := by
    have h1 := (hpermA.symm).map
      (fun a => ((proc.find? (fun b => b.id = a.id)).getD a))
    rw [hlookup] at h1
    exact h1
  have hggids : (((A1.filter (fun a => !a.apagado)).map
      (fun a => ((proc.find? (fun b => b.id = a.id)).getD a))).map (fun a => a.id))
      = (A1.filter (fun a => !a.apagado)).map (fun a => a.id) := by
    rw [List.map_map]
    apply List.map_congr_left
    intro a _
    exact lookup_id proc a
  have hA2eq : (renumerarAulas aulas tipos).1
      = A1.map (fun a => if a.apagado then a
          else ((proc.find? (fun b => b.id = a.id)).getD a)) := rfl
  have hA2f : ((renumerarAulas aulas tipos).1.filter (fun a => !a.apagado))
      = (A1.filter (fun a => !a.apagado)).map
          (fun a => ((proc.find? (fun b => b.id = a.id)).getD a)) := by
    rw [hA2eq]
    exact filter_map_lookup proc hprocapag A1
  have hsortlt : List.Pairwise aulaLt
      (ativosOrdenados (renumerarAulas aulas tipos).1) := by
    have hn : (((renumerarAulas aulas tipos).1.filter (fun a => !a.apagado)).map
        (fun a => a.id)).Nodup := by
      rw [hA2f, hggids]
      exact hnodupF
    exact sortAulas_pairwise_lt _ hn
  have hsortperm : (ativosOrdenados (renumerarAulas aulas tipos).1).Perm proc := by
    have h1 : (ativosOrdenados (renumerarAulas aulas tipos).1).Perm
        ((renumerarAulas aulas tipos).1.filter (fun a => !a.apagado)) :=
      List.perm_insertionSort aulaLe _
    rw [hA2f] at h1
    exact h1.trans hpermgg
  have hA2ativos : ativosOrdenados (renumerarAulas aulas tipos).1 = proc :=
    List.eq_of_perm_of_sorted hsortperm hsortlt hproclt
  have hnoop : (dedupAulas (renumerarAulas aulas tipos).1).1
      = (renumerarAulas aulas tipos).1 := by
    apply dedupAulas_noop
    rw [hA2ativos]
    exact hprocd
  have hpassproc : renumerarPasso tipos proc 0 (fun _ => 0) = proc := by
    rw [hprocdef]
    exact renumerarPasso_idem tipos ativ1 0 (fun _ => 0) hcond1
  have hunfold : (renumerarAulas (renumerarAulas aulas tipos).1 tipos).1
      = (dedupAulas (renumerarAulas aulas tipos).1).1.map (fun a =>
          if a.apagado then a
          else ((renumerarPasso tipos
              (ativosOrdenados (dedupAulas (renumerarAulas aulas tipos).1).1) 0
              (fun _ => 0)).find? (fun b => b.id = a.id)).getD a) := rfl
  rw [hunfold, hnoop, hA2ativos, hpassproc]
  apply map_self_of_eq
  intro a ha
  by_cases hap : a.apagado
  · simp [hap]
  · rw [if_neg hap]
    have hmem : a ∈ proc := by
      have h1 : a ∈ (renumerarAulas aulas tipos).1.filter (fun a => !a.apagado) :=
        List.mem_filter.mpr ⟨ha, by simp [hap]⟩
      rw [hA2f] at h1
      exact hpermgg.mem_iff.mp h1
    have hprocnodup : (proc.map (fun a => a.id)).Nodup := by
      rw [hprocids]
      exact hnodupA
    rw [find_self_of_nodup proc hprocnodup a hmem]
    rfl

/-- A class whose single Active lesson is of a regular type with a recorded
non-lesson count equal to its whole slot total (net 0). -/
def dbC2 : DB :=
  { turma := none, ano := none, periodos := [], modulos := [], horarios := [],
    interrupcoes := [], feriados := [],
    aulas := [⟨1, 1, 0, 0, none, none, none, [], none, "normal", false, some 1⟩],
    nextAulaId := 2, nextModuloId := 1 }

/-- C2: the claim as stated is false: renumbering is not idempotent. A regular
(non-special) lesson whose recorded non-lesson count covers its whole slot
total gets net 0 on the first run, which overwrites its stored non-lesson
count with 0; the second run then computes net = total and assigns it fresh
sequence numbers, so the stored values change. -/
theorem C2_counterexample_not_idempotent :
    (renumerar_calendario_turma (renumerar_calendario_turma dbC2 none).1 none).1
      ≠ (renumerar_calendario_turma dbC2 none).1 := by decide

/-- C2 (amended): renumbering is idempotent whenever the class's rows have
pairwise-distinct ids and every Active lesson of a non-special type has its
clamped non-lesson count strictly below its slot total (positive net): a
second run immediately after a first changes no stored value. -/
theorem C2_amended_idempotent_when_positive_net (db : DB)
    (hnodup : (db.aulas.map (fun a => a.id)).Nodup)
    (hcond : ∀ a ∈ db.aulas, a.apagado = false → a.tipo ∉ DEFAULT_TIPOS_SEM_AULA →
      faltasRenumeracao DEFAULT_TIPOS_SEM_AULA a < _total_previsto_para_aula a) :
    (renumerar_calendario_turma (renumerar_calendario_turma db none).1 none).1
      = (renumerar_calendario_turma db none).1 := by
  have hfix := renumerarAulas_fixpoint DEFAULT_TIPOS_SEM_AULA db.aulas hnodup hcond
  simp only [renumerar_calendario_turma, Option.getD_none]
  rw [hfix]

/-- A class with one regular Active lesson of positive net. -/
def dbC2W : DB :=
  { turma := none, ano := none, periodos := [], modulos := [], horarios := [],
    interrupcoes := [], feriados := [],
    aulas := [⟨1, 1, 0, 0, none, none, none, [], none, "normal", false, none⟩],
    nextAulaId := 2, nextModuloId := 1 }

/-- Witness: the amended C2 statement holds at a concrete class state. -/
theorem C2_amended_witness :
    ((dbC2W.aulas.map (fun a => a.id)).Nodup
      ∧ ∀ a ∈ dbC2W.aulas, a.apagado = false → a.tipo ∉ DEFAULT_TIPOS_SEM_AULA →
          faltasRenumeracao DEFAULT_TIPOS_SEM_AULA a < _total_previsto_para_aula a)
    ∧ (renumerar_calendario_turma (renumerar_calendario_turma dbC2W none).1 none).1
      = (renumerar_calendario_turma dbC2W none).1 :=
  ⟨⟨by decide, by decide⟩,
   C2_amended_idempotent_when_positive_net dbC2W (by decide) (by decide)⟩

/-- Slots attributed to module `i` by a day's `(module, codes, number)` triples. -/
def slotSum (linhas : List (Nat × List Nat × Nat)) (i : Nat) : Nat :=
  ((linhas.filter (fun l => l.1 = i)).map (fun l => l.2.1.length)).sum

theorem slotSum_append (l1 l2 : List (Nat × List Nat × Nat)) (i : Nat) :
    slotSum (l1 ++ l2) i = slotSum l1 i + slotSum l2 i := by
  simp [slotSum, List.filter_append]

theorem slotSum_flush (modCor : Option Nat) (sumCor : List Nat) (numFin : Option Nat)
    (i : Nat) :
    slotSum (flushFinal modCor sumCor numFin) i
      = (if modCor = some i then sumCor.length else 0) := by
  cases modCor with
  | none => simp [flushFinal, slotSum]
  | some mc =>
    by_cases hs : sumCor = []
    · subst hs
      simp [flushFinal, slotSum]
    · by_cases hmc : mc = i
      · subst hmc
        simp [flushFinal, slotSum, hs, List.filter]
      · simp [flushFinal, slotSum, hs, List.filter, hmc, Option.some_inj]

/-- The day-fill loop never pushes a module past its configured target. -/
theorem preencherDiaF_quota (modulos : List Modulo) (pid : Option Nat)
    (totais : Nat → Int) :
    ∀ (passos idx : Nat) (prog : Nat → Nat) (contador aulasHoje : Nat)
      (modCor : Option Nat) (sumCor : List Nat) (numFin : Option Nat),
    (∀ i, 0 < totais i → ((prog i : Nat) : Int) ≤ totais i) →
    ∀ i, 0 < totais i →
      (((preencherDiaF modulos pid totais passos idx prog contador aulasHoje
          modCor sumCor numFin).2.2.1 i : Nat) : Int) ≤ totais i := by
  intro passos
  induction passos with
  | zero =>
    intro idx prog contador aulasHoje modCor sumCor numFin h i hi
    exact h i hi
  | succ n ih =>
    intro idx prog contador aulasHoje modCor sumCor numFin h i hi
    by_cases h0 : aulasHoje = 0
    · simp only [preencherDiaF, if_pos h0]
      exact h i hi
    · simp only [preencherDiaF, if_neg h0]
      split
      · -- fixed module branch
        split
        · exact h i hi
        · split
          · exact h i hi
          · next m hf hex =>
            refine ih _ _ _ _ _ _ _ ?_ i hi
            intro j hj
            by_cases hjm : j = m.id
            · have hj' : 0 < totais m.id := hjm ▸ hj
              have h2 : ¬(totais m.id ≤ ((prog m.id : Nat) : Int)) := fun hc => hex ⟨hj', hc⟩
              rw [if_pos hjm, hjm]
              push_cast
              omega
            · simp only [if_neg hjm]
              exact h j hj
      · -- cursor branch
        split
        · exact h i hi
        · split
          · exact ih _ _ _ _ _ _ _ h i hi
          · next m hg hex =>
            refine ih _ _ _ _ _ _ _ ?_ i hi
            intro j hj
            by_cases hjm : j = m.id
            · have hj' : 0 < totais m.id := hjm ▸ hj
              have h2 : ¬(totais m.id ≤ ((prog m.id : Nat) : Int)) := fun hc => hex ⟨hj', hc⟩
              rw [if_pos hjm, hjm]
              push_cast
              omega
            · simp only [if_neg hjm]
              exact h j hj

theorem slotSum_nil (i : Nat) : slotSum [] i = 0 := rfl

theorem slotSum_single (mc : Nat) (sc : List Nat) (k i : Nat) :
    slotSum [(mc, sc, k)] i = if mc = i then sc.length else 0 := by
  by_cases h : mc = i <;> simp [slotSum, List.filter, h]

theorem slotSum_cons (mc : Nat) (sc : List Nat) (k i : Nat)
    (rest : List (Nat × List Nat × Nat)) :
    slotSum ((mc, sc, k) :: rest) i
      = (if mc = i then sc.length else 0) + slotSum rest i := by
  by_cases h : mc = i <;> simp [slotSum, List.filter_cons, h]

/-- Accounting for the day-fill loop: the per-module progress delta equals the
slots attributed to the module by the emitted triples (pending slots of the
current module included). -/
theorem preencherDiaF_slots (modulos : List Modulo) (pid : Option Nat)
    (totais : Nat → Int) :
    ∀ (passos idx : Nat) (prog : Nat → Nat) (contador aulasHoje : Nat)
      (modCor : Option Nat) (sumCor : List Nat) (numFin : Option Nat),
    (modCor = none → sumCor = []) →
    ∀ i,
      (preencherDiaF modulos pid totais passos idx prog contador aulasHoje
          modCor sumCor numFin).2.2.1 i
        + (if modCor = some i then sumCor.length else 0)
      = prog i + slotSum (preencherDiaF modulos pid totais passos idx prog contador
          aulasHoje modCor sumCor numFin).1 i := by
  intro passos
  induction passos with
  | zero =>
    intro idx prog contador aulasHoje modCor sumCor numFin hmc i
    simp only [preencherDiaF, slotSum_flush]
  | succ n ih =>
    intro idx prog contador aulasHoje modCor sumCor numFin hmc i
    by_cases h0 : aulasHoje = 0
    · simp only [preencherDiaF, if_pos h0, slotSum_flush]
    · simp only [preencherDiaF, if_neg h0]
      split
      · -- pid = some p
        split
        · -- find? none: flush
          simp only [slotSum_flush]
        · -- find? some m
          split
          · -- exhausted: flush
            simp only [slotSum_flush]
          · -- consume
            next m hf hex =>
            cases modCor with
            | none =>
              have hsc : sumCor = [] := hmc rfl
              subst hsc
              simp [slotSum_append, slotSum_cons, slotSum_single, slotSum_nil]
              have ihr := ih idx (fun j => if j = m.id then prog m.id + 1 else prog j)
                (contador + 1) (aulasHoje - 1) (some m.id) [contador + 1]
                (some (prog m.id + 1)) (fun h => nomatch h) i
              simp only [Option.some.injEq, List.length_cons, List.length_nil] at ihr
              by_cases him : i = m.id
              · subst him
                rw [if_pos rfl, if_pos rfl] at ihr
                omega
              · rw [if_neg (show ¬(m.id = i) from fun h => him h.symm),
                  if_neg (show ¬(i = m.id) from him)] at ihr
                omega
            | some mc =>
              by_cases hmcm : mc = m.id
              · subst hmcm
                simp [slotSum_append, slotSum_cons, slotSum_single, slotSum_nil]
                have ihr := ih idx (fun j => if j = m.id then prog m.id + 1 else prog j)
                  (contador + 1) (aulasHoje - 1) (some m.id) (sumCor ++ [contador + 1])
                  (some (prog m.id + 1)) (fun h => nomatch h) i
                simp only [Option.some.injEq, List.length_append, List.length_cons,
                  List.length_nil] at ihr
                by_cases him : i = m.id
                · subst him
                  rw [if_pos rfl, if_pos rfl] at ihr
                  rw [if_pos rfl]
                  omega
                · rw [if_neg (show ¬(m.id = i) from fun h => him h.symm),
                    if_neg (show ¬(i = m.id) from him)] at ihr
                  rw [if_neg (show ¬(m.id = i) from fun h => him h.symm)]
                  omega
              · simp [slotSum_append, slotSum_cons, slotSum_single, slotSum_nil, hmcm]
                have ihr := ih idx (fun j => if j = m.id then prog m.id + 1 else prog j)
                  (contador + 1) (aulasHoje - 1) (some m.id) [contador + 1]
                  (some (prog m.id + 1)) (fun h => nomatch h) i
                simp only [Option.some.injEq, List.length_cons, List.length_nil] at ihr
                by_cases him : i = m.id
                · subst him
                  rw [if_pos rfl, if_pos rfl] at ihr
                  omega
                · rw [if_neg (show ¬(m.id = i) from fun h => him h.symm),
                  if_neg (show ¬(i = m.id) from him)] at ihr
                  omega
      · -- pid = none (cursor)
        split
        · -- get? none: flush
          simp only [slotSum_flush]
        · split
          · -- exhausted: advance cursor
            exact ih _ _ _ _ _ _ _ hmc i
          · -- consume
            next m hg hex =>
            cases modCor with
            | none =>
              have hsc : sumCor = [] := hmc rfl
              subst hsc
              simp [slotSum_append, slotSum_cons, slotSum_single, slotSum_nil]
              have ihr := ih
                (if 0 < totais m.id ∧ totais m.id ≤ ((prog m.id : Int) + 1) then idx + 1 else idx)
                (fun j => if j = m.id then prog m.id + 1 else prog j)
                (contador + 1) (aulasHoje - 1) (some m.id) [contador + 1]
                (some (prog m.id + 1)) (fun h => nomatch h) i
              simp only [Option.some.injEq, List.length_cons, List.length_nil] at ihr
              by_cases him : i = m.id
              · subst him
                rw [if_pos rfl, if_pos rfl] at ihr
                omega
              · rw [if_neg (show ¬(m.id = i) from fun h => him h.symm),
                  if_neg (show ¬(i = m.id) from him)] at ihr
                omega
            | some mc =>
              by_cases hmcm : mc = m.id
              · subst hmcm
                simp [slotSum_append, slotSum_cons, slotSum_single, slotSum_nil]
                have ihr := ih
                  (if 0 < totais m.id ∧ totais m.id ≤ ((prog m.id : Int) + 1) then idx + 1 else idx)
                  (fun j => if j = m.id then prog m.id + 1 else prog j)
                  (contador + 1) (aulasHoje - 1) (some m.id) (sumCor ++ [contador + 1])
                  (some (prog m.id + 1)) (fun h => nomatch h) i
                simp only [Option.some.injEq, List.length_append, List.length_cons,
                  List.length_nil] at ihr
                by_cases him : i = m.id
                · subst him
                  rw [if_pos rfl, if_pos rfl] at ihr
                  rw [if_pos rfl]
                  omega
                · rw [if_neg (show ¬(m.id = i) from fun h => him h.symm),
                    if_neg (show ¬(i = m.id) from him)] at ihr
                  rw [if_neg (show ¬(m.id = i) from fun h => him h.symm)]
                  omega
              · simp [slotSum_append, slotSum_cons, slotSum_single, slotSum_nil, hmcm]
                have ihr := ih
                  (if 0 < totais m.id ∧ totais m.id ≤ ((prog m.id : Int) + 1) then idx + 1 else idx)
                  (fun j => if j = m.id then prog m.id + 1 else prog j)
                  (contador + 1) (aulasHoje - 1) (some m.id) [contador + 1]
                  (some (prog m.id + 1)) (fun h => nomatch h) i
                simp only [Option.some.injEq, List.length_cons, List.length_nil] at ihr
                by_cases him : i = m.id
                · subst him
                  rw [if_pos rfl, if_pos rfl] at ihr
                  omega
                · rw [if_neg (show ¬(m.id = i) from fun h => him h.symm),
                  if_neg (show ¬(i = m.id) from him)] at ihr
                  omega

theorem slotSum_cons2 (x : Nat × List Nat × Nat) (rest : List (Nat × List Nat × Nat))
    (i : Nat) :
    slotSum (x :: rest) i = (if x.1 = i then x.2.1.length else 0) + slotSum rest i := by
  by_cases h : x.1 = i <;> simp [slotSum, List.filter_cons, h]

theorem contagemModulo_append (l1 l2 : List CalendarioAula) (i : Nat) :
    contagemModulo (l1 ++ l2) i = contagemModulo l1 i + contagemModulo l2 i := by
  simp [contagemModulo, List.filter_append]

theorem contagemModulo_single (a : CalendarioAula) (i : Nat) :
    contagemModulo [a] i = if a.modulo_id = some i then a.sumarios.length else 0 := by
  by_cases h : a.modulo_id = some i <;> simp [contagemModulo, List.filter, h]

/-- Creating the day's rows does not touch cursor, progress or global counter. -/
theorem criar_prog_fields (periodo : Periodo) (d : Nat) :
    ∀ (linhas : List (Nat × List Nat × Nat)) (st : GenState),
    (criarAulasDoDia periodo d linhas st).idx = st.idx
      ∧ (criarAulasDoDia periodo d linhas st).prog = st.prog
      ∧ (criarAulasDoDia periodo d linhas st).contador = st.contador := by
  intro linhas
  induction linhas with
  | nil => intro st; exact ⟨rfl, rfl, rfl⟩
  | cons lin rest ih => intro st; exact ih _

/-- Creating the day's rows adds exactly the triples' slots per module. -/
theorem criar_contagem (periodo : Periodo) (d : Nat) :
    ∀ (linhas : List (Nat × List Nat × Nat)) (st : GenState) (i : Nat),
    contagemModulo (criarAulasDoDia periodo d linhas st).novas i
      = contagemModulo st.novas i + slotSum linhas i := by
  intro linhas
  induction linhas with
  | nil => intro st i; simp [criarAulasDoDia, slotSum]
  | cons lin rest ih =>
    intro st i
    have hstep : criarAulasDoDia periodo d (lin :: rest) st
        = criarAulasDoDia periodo d rest ({ st with
            novas := st.novas ++ [⟨st.nextAulaId, periodo.id, d, d % 7, some lin.1,
              some (lin.2.2 : Int), some ((lin.2.1.getLast?.getD 0 : Nat) : Int),
              lin.2.1.map (fun n => toString n), none, "normal", false, some 0⟩],
            nextAulaId := st.nextAulaId + 1,
            total_criadas := st.total_criadas + 1,
            datas_existentes := fun x => if x = d then true else st.datas_existentes x }) := rfl
    rw [hstep, ih, slotSum_cons2]
    show contagemModulo (st.novas ++ [_]) i + slotSum rest i = _
    rw [contagemModulo_append, contagemModulo_single]
    by_cases h : lin.1 = i
    · simp only [h, if_pos rfl, Option.some.injEq]
      simp [List.length_map]
      omega
    · rw [if_neg h, if_neg (by simpa using h)]
      omega

/-- The invariant the walk maintains: progress bounded by positive targets and
equal to the slots recorded on the created rows. -/
def quotaInv (totais : Nat → Int) (st : GenState) : Prop :=
  (∀ i, 0 < totais i → ((st.prog i : Nat) : Int) ≤ totais i)
  ∧ (∀ i, st.prog i = contagemModulo st.novas i)

theorem gerarDia_quota (ano : AnoLetivo) (nl1 nl2 : List Nat) (carga : Nat → Rat)
    (modulos : List Modulo) (totais : Nat → Int) (periodo : Periodo) (d : Nat)
    (st : GenState) (h : quotaInv totais st) :
    quotaInv totais (gerarDia ano nl1 nl2 carga modulos totais periodo d st) := by
  simp only [gerarDia]
  split
  · exact h
  · split
    · exact h
    · split
      · exact h
      · split
        · exact h
        · constructor
          · intro i hi
            rw [(criar_prog_fields periodo d _ _).2.1]
            exact preencherDiaF_quota modulos periodo.modulo_id totais _ _ _ _ _ _ _ _
              h.1 i hi
          · intro i
            rw [(criar_prog_fields periodo d _ _).2.1, criar_contagem periodo d _ _ i]
            have hs := preencherDiaF_slots modulos periodo.modulo_id totais
              (((carga (d % 7)).floor).toNat + (modulos.length - st.idx) + 1)
              st.idx st.prog st.contador (((carga (d % 7)).floor).toNat) none [] none
              (fun _ => rfl) i
            simp only [List.length_nil] at hs
            rw [if_neg (fun hcon => Option.noConfusion hcon)] at hs
            have h2 := h.2 i
            show (preencherDiaF modulos periodo.modulo_id totais _ _ _ _ _ none [] none).2.2.1 i
              = contagemModulo st.novas i + slotSum (preencherDiaF modulos periodo.modulo_id
                  totais _ _ _ _ _ none [] none).1 i
            omega

theorem walkDiasF_quota (ano : AnoLetivo) (nl1 nl2 : List Nat) (carga : Nat → Rat)
    (modulos : List Modulo) (totais : Nat → Int) (periodo : Periodo) :
    ∀ (dias d : Nat) (st : GenState), quotaInv totais st →
    quotaInv totais (walkDiasF ano nl1 nl2 carga modulos totais periodo dias d st) := by
  intro dias
  induction dias with
  | zero => intro d st h; exact h
  | succ n ih =>
    intro d st h
    simp only [walkDiasF]
    split
    · exact ih _ _ (gerarDia_quota _ _ _ _ _ _ _ _ _ h)
    · exact h

theorem walkPeriodos_quota (ano : AnoLetivo) (nl1 nl2 : List Nat) (carga : Nat → Rat)
    (modulos : List Modulo) (totais : Nat → Int) :
    ∀ (periodos : List Periodo) (st : GenState), quotaInv totais st →
    quotaInv totais (walkPeriodos ano nl1 nl2 carga modulos totais periodos st) := by
  intro periodos
  induction periodos with
  | nil => intro st h; exact h
  | cons p rest ih =>
    intro st h
    exact ih _ (walkDiasF_quota _ _ _ _ _ _ _ _ _ _ h)

/-- Reassigning every module's stored tolerance. -/
def setTol (f : Modulo → Int) (m : Modulo) : Modulo :=
  { m with tolerancia := f m }

/-- The store with every module's tolerance reassigned. -/
def dbSetTol (f : Modulo → Int) (db : DB) : DB :=
  { db with modulos := db.modulos.map (setTol f) }

theorem orderedInsert_setTol (f : Modulo → Int) (a : Modulo) :
    ∀ l : List Modulo,
    List.orderedInsert (fun x y : Modulo => x.id ≤ y.id) (setTol f a) (l.map (setTol f))
      = (List.orderedInsert (fun x y : Modulo => x.id ≤ y.id) a l).map (setTol f) := by
  intro l
  induction l with
  | nil => rfl
  | cons b rest ih =>
    simp only [List.map_cons, List.orderedInsert, setTol]
    by_cases h : a.id ≤ b.id
    · simp only [if_pos h, List.map_cons]
      rfl
    · simp only [if_neg h, List.map_cons]
      rw [← ih]
      rfl

theorem sortModulos_setTol (f : Modulo → Int) :
    ∀ l : List Modulo, sortModulos (l.map (setTol f)) = (sortModulos l).map (setTol f) := by
  intro l
  induction l with
  | nil => rfl
  | cons a rest ih =>
    simp only [sortModulos, List.map_cons, List.insertionSort] at ih ⊢
    rw [ih]
    exact orderedInsert_setTol f a (rest.insertionSort (fun x y => x.id ≤ y.id))

theorem construirTotais_setTol (f : Modulo → Int) (l : List Modulo) :
    construirTotais (l.map (setTol f)) = construirTotais l := by
  unfold construirTotais
  rw [List.foldl_map]
  rfl

theorem find?_setTol (f : Modulo → Int) (l : List Modulo) (pid : Nat) :
    (l.map (setTol f)).find? (fun m => m.id = pid)
      = (l.find? (fun m => m.id = pid)).map (setTol f) := by
  rw [List.find?_map]
  rfl

theorem get?_setTol (f : Modulo → Int) (l : List Modulo) (idx : Nat) :
    (l.map (setTol f)).get? idx = (l.get? idx).map (setTol f) :=
  List.get?_map (setTol f) l idx

/-- The day-fill loop reads only module ids: tolerances are never applied. -/
theorem preencherDiaF_setTol (f : Modulo → Int) (modulos : List Modulo)
    (pid : Option Nat) (totais : Nat → Int) :
    ∀ (passos idx : Nat) (prog : Nat → Nat) (contador aulasHoje : Nat)
      (modCor : Option Nat) (sumCor : List Nat) (numFin : Option Nat),
    preencherDiaF (modulos.map (setTol f)) pid totais passos idx prog contador
        aulasHoje modCor sumCor numFin
      = preencherDiaF modulos pid totais passos idx prog contador aulasHoje
          modCor sumCor numFin := by
  intro passos
  induction passos with
  | zero => intro idx prog contador aulasHoje modCor sumCor numFin; rfl
  | succ n ih =>
    intro idx prog contador aulasHoje modCor sumCor numFin
    by_cases h0 : aulasHoje = 0
    · simp only [preencherDiaF, if_pos h0]
    · cases pid with
      | some p =>
        cases hf : modulos.find? (fun m => m.id = p) with
        | none =>
          simp only [preencherDiaF, if_neg h0, find?_setTol, hf, Option.map_none']
        | some m =>
          simp only [preencherDiaF, if_neg h0, find?_setTol, hf, Option.map_some', setTol]
          rw [ih]
      | none =>
        cases hg : modulos.get? idx with
        | none =>
          simp only [preencherDiaF, if_neg h0, get?_setTol, hg, Option.map_none']
        | some m =>
          simp only [preencherDiaF, if_neg h0, get?_setTol, hg, Option.map_some', setTol]
          rw [ih, ih]

theorem gerarDia_setTol (f : Modulo → Int) (ano : AnoLetivo) (nl1 nl2 : List Nat)
    (carga : Nat → Rat) (modulos : List Modulo) (totais : Nat → Int)
    (periodo : Periodo) (d : Nat) (st : GenState) :
    gerarDia ano nl1 nl2 carga (modulos.map (setTol f)) totais periodo d st
      = gerarDia ano nl1 nl2 carga modulos totais periodo d st := by
  simp only [gerarDia, preencherDia, List.length_map, preencherDiaF_setTol]

theorem walkDiasF_setTol (f : Modulo → Int) (ano : AnoLetivo) (nl1 nl2 : List Nat)
    (carga : Nat → Rat) (modulos : List Modulo) (totais : Nat → Int)
    (periodo : Periodo) :
    ∀ (dias d : Nat) (st : GenState),
    walkDiasF ano nl1 nl2 carga (modulos.map (setTol f)) totais periodo dias d st
      = walkDiasF ano nl1 nl2 carga modulos totais periodo dias d st := by
  intro dias
  induction dias with
  | zero => intro d st; rfl
  | succ n ih =>
    intro d st
    simp only [walkDiasF, gerarDia_setTol, ih]

theorem walkPeriodos_setTol (f : Modulo → Int) (ano : AnoLetivo) (nl1 nl2 : List Nat)
    (carga : Nat → Rat) (modulos : List Modulo) (totais : Nat → Int) :
    ∀ (periodos : List Periodo) (st : GenState),
    walkPeriodos ano nl1 nl2 carga (modulos.map (setTol f)) totais periodos st
      = walkPeriodos ano nl1 nl2 carga modulos totais periodos st := by
  intro periodos
  induction periodos with
  | nil => intro st; rfl
  | cons p rest ih =>
    intro st
    show walkPeriodos ano nl1 nl2 carga (modulos.map (setTol f)) totais rest
        (walkDias ano nl1 nl2 carga (modulos.map (setTol f)) totais p p.data_inicio st)
      = _
    rw [show walkDias ano nl1 nl2 carga (modulos.map (setTol f)) totais p p.data_inicio st
        = walkDias ano nl1 nl2 carga modulos totais p p.data_inicio st from ?_]
    · exact ih _
    · simp only [walkDias, walkDiasF_setTol]

/-- Reassigning tolerances leaves the module-resolution facts the generator's
successful path depends on unchanged, and the period walk produces the same
state. -/
theorem garantir_setTol_facts (f : Modulo → Int) (db : DB) (turma : Turma) :
    ((garantir_modulos_para_turma (dbSetTol f db) turma).1 = []
        ↔ (garantir_modulos_para_turma db turma).1 = [])
    ∧ _mapa_carga_semana (garantir_modulos_para_turma (dbSetTol f db) turma).2 turma
        = _mapa_carga_semana (garantir_modulos_para_turma db turma).2 turma
    ∧ (garantir_modulos_para_turma (dbSetTol f db) turma).2.aulas
        = (garantir_modulos_para_turma db turma).2.aulas
    ∧ (garantir_modulos_para_turma (dbSetTol f db) turma).2.nextAulaId
        = (garantir_modulos_para_turma db turma).2.nextAulaId
    ∧ (∀ (ano : AnoLetivo) (nl1 nl2 : List Nat) (carga : Nat → Rat)
        (periodos : List Periodo) (st : GenState),
        walkPeriodos ano nl1 nl2 carga
            (garantir_modulos_para_turma (dbSetTol f db) turma).1
            (construirTotais (garantir_modulos_para_turma (dbSetTol f db) turma).1)
            periodos st
          = walkPeriodos ano nl1 nl2 carga (garantir_modulos_para_turma db turma).1
              (construirTotais (garantir_modulos_para_turma db turma).1) periodos st) := by
  by_cases hsm : sortModulos db.modulos = []
  · have hperm : (sortModulos db.modulos).Perm db.modulos :=
      List.perm_insertionSort _ db.modulos
    rw [hsm] at hperm
    have hmod0 : db.modulos = [] := hperm.nil_eq.symm
    have hdbeq : dbSetTol f db = db := by
      cases db with
      | mk t a per mo ho intr fer au n1 n2 =>
        simp only [dbSetTol]
        simp only at hmod0
        rw [hmod0]
        rfl
    rw [hdbeq]
    exact ⟨Iff.rfl, rfl, rfl, rfl, fun _ _ _ _ _ _ => rfl⟩
  · have hmapne : sortModulos ((dbSetTol f db).modulos) ≠ [] := by
      show sortModulos (db.modulos.map (setTol f)) ≠ []
      rw [sortModulos_setTol]
      simp [hsm]
    have hg1 : garantir_modulos_para_turma (dbSetTol f db) turma
        = ((sortModulos db.modulos).map (setTol f), dbSetTol f db) := by
      simp only [garantir_modulos_para_turma]
      rw [if_pos hmapne]
      rw [show sortModulos ((dbSetTol f db).modulos)
          = sortModulos (db.modulos.map (setTol f)) from rfl, sortModulos_setTol]
    have hg2 : garantir_modulos_para_turma db turma = (sortModulos db.modulos, db) := by
      simp only [garantir_modulos_para_turma]
      rw [if_pos hsm]
    rw [hg1, hg2]
    refine ⟨?_, rfl, rfl, rfl, ?_⟩
    · show (sortModulos db.modulos).map (setTol f) = [] ↔ sortModulos db.modulos = []
      simp
    · intro ano nl1 nl2 carga periodos st
      show walkPeriodos ano nl1 nl2 carga ((sortModulos db.modulos).map (setTol f))
          (construirTotais ((sortModulos db.modulos).map (setTol f))) periodos st
        = walkPeriodos ano nl1 nl2 carga (sortModulos db.modulos)
            (construirTotais (sortModulos db.modulos)) periodos st
      rw [construirTotais_setTol, walkPeriodos_setTol]

/-- The generator's walk state on its successful path (the exact arguments
`gerar_calendario_turma` passes to the period walk). -/
def geracaoStF (db : DB) (turma : Turma) (recalcular_tudo : Bool) (ano : AnoLetivo) :
    GenState :=
  let nl := _build_dias_nao_letivos db
  let periodos := filtrar_periodos_para_turma turma (sortPeriodos db.periodos)
  let gm := garantir_modulos_para_turma db turma
  let modulos := gm.1
  let db1 := gm.2
  let totais := construirTotais modulos
  let carga := _mapa_carga_semana db1 turma
  let db2 := if recalcular_tudo then { db1 with aulas := [] } else db1
  let datas_existentes : Nat → Bool :=
    if recalcular_tudo then fun _ => false
    else fun d => db1.aulas.any (fun a => !a.apagado && a.data == d)
  walkPeriodos ano nl.1 nl.2 carga modulos totais periodos
    ⟨0, fun _ => 0, 0, datas_existentes, [], db2.nextAulaId, 0⟩

/-- The store the generator returns on its successful path. -/
def geracaoDb4 (db : DB) (turma : Turma) (recalcular_tudo : Bool) (ano : AnoLetivo) :
    DB :=
  let gm := garantir_modulos_para_turma db turma
  let db1 := gm.2
  let db2 := if recalcular_tudo then { db1 with aulas := [] } else db1
  let stF := geracaoStF db turma recalcular_tudo ano
  (renumerar_calendario_turma
    { db2 with aulas := db2.aulas ++ stF.novas, nextAulaId := stF.nextAulaId } none).1

/-- On the successful path the generator returns exactly the walk's output. -/
theorem gerar_eq_geracao (db : DB) (tid : Nat) (rec : Bool) (turma : Turma)
    (ano : AnoLetivo) (ht : getTurma db tid = some turma) (hano : db.ano = some ano)
    (hper : filtrar_periodos_para_turma turma (sortPeriodos db.periodos) ≠ [])
    (hmod : (garantir_modulos_para_turma db turma).1 ≠ [])
    (hcarga : temCarga (_mapa_carga_semana (garantir_modulos_para_turma db turma).2 turma)
      = true) :
    gerar_calendario_turma db tid rec
      = Except.ok (geracaoDb4 db turma rec ano,
          (geracaoStF db turma rec ano).total_criadas) := by
  simp only [gerar_calendario_turma, ht, hano, geracaoDb4, geracaoStF]
  simp [hper, hmod, hcarga]

/-- C1: on any successful generator run (class, year, applicable periods,
modules and weekly load all resolve; no backfill is involved — the generator
never backfills), the run is exactly the period walk from the zero state; every
module with a positive configured target is assigned at most that many lesson
slots across the created rows; and reassigning every module's tolerance changes
neither the generated rows nor the created count — the tolerance field is not
applied during generation. -/
theorem C1_quota_and_tolerance_not_applied (db : DB) (tid : Nat) (rec : Bool)
    (f : Modulo → Int) (turma : Turma) (ano : AnoLetivo)
    (ht : getTurma db tid = some turma) (hano : db.ano = some ano)
    (hper : filtrar_periodos_para_turma turma (sortPeriodos db.periodos) ≠ [])
    (hmod : (garantir_modulos_para_turma db turma).1 ≠ [])
    (hcarga : temCarga (_mapa_carga_semana (garantir_modulos_para_turma db turma).2 turma)
      = true) :
    gerar_calendario_turma db tid rec
        = Except.ok (geracaoDb4 db turma rec ano,
            (geracaoStF db turma rec ano).total_criadas)
    ∧ (∀ i, 0 < construirTotais (garantir_modulos_para_turma db turma).1 i →
        ((contagemModulo (geracaoStF db turma rec ano).novas i : Nat) : Int)
          ≤ construirTotais (garantir_modulos_para_turma db turma).1 i)
    ∧ (gerar_calendario_turma (dbSetTol f db) tid rec).map (fun p => (p.1.aulas, p.2))
        = (gerar_calendario_turma db tid rec).map (fun p => (p.1.aulas, p.2)) := by
  obtain ⟨hiff, hmapa, haulas, hnext, hwalk⟩ := garantir_setTol_facts f db turma
  have ht2 : getTurma (dbSetTol f db) tid = some turma := ht
  have hano2 : (dbSetTol f db).ano = some ano := hano
  have hper2 : filtrar_periodos_para_turma turma (sortPeriodos (dbSetTol f db).periodos)
      ≠ [] := hper
  have hmod2 : (garantir_modulos_para_turma (dbSetTol f db) turma).1 ≠ [] :=
    fun h => hmod (hiff.mp h)
  have hcarga2 : temCarga (_mapa_carga_semana
      (garantir_modulos_para_turma (dbSetTol f db) turma).2 turma) = true := by
    rw [hmapa]
    exact hcarga
  have hnl : _build_dias_nao_letivos (dbSetTol f db) = _build_dias_nao_letivos db := rfl
  have hperiodos : (dbSetTol f db).periodos = db.periodos := rfl
  have db2_next : ∀ (b : Bool) (x : DB),
      (if b = true then { x with aulas := [] } else x).nextAulaId = x.nextAulaId := by
    intro b x
    cases b <;> rfl
  have db2_aulas : ∀ (b : Bool) (x : DB),
      (if b = true then { x with aulas := [] } else x).aulas
        = if b = true then [] else x.aulas := by
    intro b x
    cases b <;> rfl
  have hstF : geracaoStF (dbSetTol f db) turma rec ano = geracaoStF db turma rec ano := by
    unfold geracaoStF
    simp only [hnl, hperiodos, hmapa, haulas, db2_next]
    simp only [hnext]
    exact hwalk _ _ _ _ _ _
  have hdb4 : (geracaoDb4 (dbSetTol f db) turma rec ano).aulas
      = (geracaoDb4 db turma rec ano).aulas := by
    unfold geracaoDb4
    simp only [renumerar_calendario_turma, db2_aulas, db2_next]
    simp only [haulas, hnext, hstF]
  have hL := gerar_eq_geracao (dbSetTol f db) tid rec turma ano ht2 hano2 hper2 hmod2 hcarga2
  have hR := gerar_eq_geracao db tid rec turma ano ht hano hper hmod hcarga
  refine ⟨hR, ?_, ?_⟩
  · have hq : quotaInv (construirTotais (garantir_modulos_para_turma db turma).1)
        (geracaoStF db turma rec ano) := by
      unfold geracaoStF
      refine walkPeriodos_quota _ _ _ _ _ _ _ _ ⟨?_, ?_⟩
      · intro i hi
        show ((0 : Nat) : Int) ≤ _
        omega
      · intro i
        rfl
    intro i hi
    have h1 := hq.1 i hi
    have h2 := hq.2 i
    rw [← h2]
    exact h1
  · rw [hL, hR]
    simp only [Except.map]
    rw [hdb4, hstF]

/-- Witness: the C1 statement holds on the concrete C3 class. -/
theorem C1_witness :
    (getTurma dbC3 1 = some turmaC3
      ∧ dbC3.ano = some ⟨0, 200⟩
      ∧ filtrar_periodos_para_turma turmaC3 (sortPeriodos dbC3.periodos) ≠ []
      ∧ (garantir_modulos_para_turma dbC3 turmaC3).1 ≠ []
      ∧ temCarga (_mapa_carga_semana (garantir_modulos_para_turma dbC3 turmaC3).2 turmaC3)
          = true)
    ∧ (gerar_calendario_turma dbC3 1 true
        = Except.ok (geracaoDb4 dbC3 turmaC3 true ⟨0, 200⟩,
            (geracaoStF dbC3 turmaC3 true ⟨0, 200⟩).total_criadas)
      ∧ (∀ i, 0 < construirTotais (garantir_modulos_para_turma dbC3 turmaC3).1 i →
          ((contagemModulo (geracaoStF dbC3 turmaC3 true ⟨0, 200⟩).novas i : Nat) : Int)
            ≤ construirTotais (garantir_modulos_para_turma dbC3 turmaC3).1 i)
      ∧ (gerar_calendario_turma (dbSetTol (fun _ => 7) dbC3) 1 true).map
            (fun p => (p.1.aulas, p.2))
          = (gerar_calendario_turma dbC3 1 true).map (fun p => (p.1.aulas, p.2))) :=
  ⟨⟨by decide, rfl, by decide, by decide, by decide⟩,
   C1_quota_and_tolerance_not_applied dbC3 1 true (fun _ => 7) turmaC3 ⟨0, 200⟩
     (by decide) rfl (by decide) (by decide) (by decide)⟩

/-- `_periodo_para_data_periodos`: first period containing the date. -/
def _periodo_para_data_periodos (periodos : List Periodo) (d : Nat) : Option Periodo :=
  periodos.find? (fun p => p.data_inicio ≤ d && d ≤ p.data_fim)

/-- An entry of the completer's work queue: a real row to reschedule or a
`"novo-i"` placeholder. -/
inductive ItemFila where
  | aula (a : CalendarioAula)
  | marcador (s : String)
deriving DecidableEq

def itemAula : ItemFila → Option CalendarioAula
  | ItemFila.aula a => some a
  | ItemFila.marcador _ => none

/-- `{m.id: max(int(m.total_aulas or 0), 0)}`. -/
def totaisDeficit (modulos : List Modulo) : Nat → Int :=
  modulos.foldl (fun f m => fun j => if j = m.id then max m.total_aulas 0 else f j)
    (fun _ => (0 : Int))

/-- `progresso_atual`: net slots delivered per module over the Active rows
(`if aula.modulo_id:` skips null and 0). -/
def progressoAtual (aulas : List CalendarioAula) : Nat → Nat :=
  aulas.foldl (fun f a =>
    match a.modulo_id with
    | some mid => if mid = 0 then f else fun j => if j = mid then f mid + _contar_aulas a else f j
    | none => f) (fun _ => 0)

/-- The placeholder-run inner `while`: pop leading placeholders while below the
remaining capacity, returning the count taken and the rest of the queue. -/
def tomarMarcadores (cap : Int) : List ItemFila → Nat → Nat × List ItemFila
  | [], taken => (taken, [])
  | ItemFila.marcador s :: rest, taken =>
    if (taken : Int) < cap then tomarMarcadores cap rest (taken + 1)
    else (taken, ItemFila.marcador s :: rest)
  | ItemFila.aula a :: rest, taken => (taken, ItemFila.aula a :: rest)

/-- The completer's mutable session: the class's rows, the insertion id counter
and the running count of added placeholder slots. -/
structure DeficitState where
  aulas : List CalendarioAula
  nextAulaId : Nat
  total : Nat
deriving DecidableEq

/-- The inner `while aulas_agendadas < carga_dia` loop of the completer: move
queued rows onto the day (breaking when the next row does not fit) and turn
placeholder runs into one fresh `"?"`-summaries row.  Each iteration pops at
least one queue entry, so `fila.length + 1` iterations suffice; the recursion
is driven structurally by that bound. -/
def diaDeficitF (pid d mid : Nat) (carga_dia : Int) :
    Nat → List ItemFila → Nat → DeficitState → List ItemFila × DeficitState
  | 0, fila, _, st => (fila, st)
  | fuel + 1, fila, agendadas, st =>
    if (agendadas : Int) < carga_dia then
      match fila with
      | [] => ([], st)
      | ItemFila.aula a :: rest =>
        let consumo : Nat := max 1 (_contar_aulas a)
        let capacidade := carga_dia - (agendadas : Int)
        if (consumo : Int) > capacidade then (ItemFila.aula a :: rest, st)
        else
          let a2 := { a with data := d, periodo_id := pid, weekday := d % 7 }
          let st2 := { st with aulas := st.aulas.map (fun b => if b.id = a.id then a2 else b) }
          diaDeficitF pid d mid carga_dia fuel rest (agendadas + consumo) st2
      | ItemFila.marcador s :: rest =>
        let capacidade := carga_dia - (agendadas : Int)
        let r := tomarMarcadores capacidade (ItemFila.marcador s :: rest) 0
        let nova : CalendarioAula :=
          { id := st.nextAulaId, periodo_id := pid, data := d, weekday := d % 7,
            modulo_id := some mid, numero_modulo := none, total_geral := none,
            sumarios := List.replicate r.1 "?", sumario := none, tipo := "normal",
            apagado := false, tempos_sem_aula := some 0 }
        let st2 := { st with aulas := st.aulas ++ [nova],
                             nextAulaId := st.nextAulaId + 1,
                             total := st.total + r.1 }
        diaDeficitF pid d mid carga_dia fuel r.2 (agendadas + r.1) st2
    else (fila, st)

/-- The completer's per-module date walk (`while data_atual <= data_limite and
fila_trabalho`), driven structurally by the number of remaining days. -/
def walkDeficitF (ano : AnoLetivo) (di df dias_sem_aula : List Nat)
    (carga : Nat → Rat) (periodos_validos : List Periodo) (mid : Nat)
    (data_limite : Nat) :
    Nat → Nat → List ItemFila → DeficitState → List ItemFila × DeficitState
  | 0, _, fila, st => (fila, st)
  | dias + 1, d, fila, st =>
    if d ≤ data_limite ∧ fila ≠ [] then
      if d ∈ dias_sem_aula then
        walkDeficitF ano di df dias_sem_aula carga periodos_validos mid data_limite
          dias (d + 1) fila st
      else if !(_e_dia_letivo d ano di df) then
        walkDeficitF ano di df dias_sem_aula carga periodos_validos mid data_limite
          dias (d + 1) fila st
      else
        let carga_dia := (carga (d % 7)).floor
        if carga_dia ≤ 0 then
          walkDeficitF ano di df dias_sem_aula carga periodos_validos mid data_limite
            dias (d + 1) fila st
        else
          match _periodo_para_data_periodos periodos_validos d with
          | none =>
            walkDeficitF ano di df dias_sem_aula carga periodos_validos mid data_limite
              dias (d + 1) fila st
          | some periodo =>
            let r := diaDeficitF periodo.id d mid carga_dia (fila.length + 1) fila 0 st
            walkDeficitF ano di df dias_sem_aula carga periodos_validos mid data_limite
              dias (d + 1) r.1 r.2
    else (fila, st)

/-- One iteration of the completer's `for modulo in modulos` loop: re-read the
Active rows, choose the insertion window, build the work queue (placeholders
first) and run the date walk. -/
def moduloDeficitStep (ano : AnoLetivo) (di df : List Nat) (carga : Nat → Rat)
    (periodos_validos : List Periodo) (inicio0 : Nat) (data_limite : Nat)
    (data_removida modulo_removido_id : Option Nat) (deficitMap : Nat → Nat)
    (st : DeficitState) (modulo : Modulo) : DeficitState :=
  let deficit := deficitMap modulo.id
  if deficit = 0 then st
  else
    let aulas_existentes := ativosOrdenados st.aulas
    let dias_sem_aula :=
      (aulas_existentes.filter (fun a => a.tipo ∈ DEFAULT_TIPOS_SEM_AULA)).map
        (fun a => a.data)
    let aulas_reagendar :=
      aulas_existentes.filter (fun a => a.tipo ∉ DEFAULT_TIPOS_SEM_AULA)
    let ultima := aulas_existentes.reverse.find? (fun a => a.modulo_id = some modulo.id)
    let data_inicio0 := match ultima with
      | some u => u.data + 1
      | none => inicio0
    let data_corte : Option Nat := match data_removida, modulo_removido_id with
      | some dr, some rid => if rid ≠ 0 ∧ modulo.id = rid then some dr else none
      | _, _ => none
    let data_inicio := match data_corte with
      | some dc => max (dc + 1) inicio0
      | none => data_inicio0
    let fila0 : List ItemFila := match data_corte, ultima with
      | some dc, _ => (aulas_reagendar.filter (fun a => dc ≤ a.data)).map ItemFila.aula
      | none, some u =>
        (aulas_reagendar.filter (fun a =>
          u.data < a.data ∨ (a.data = u.data ∧ u.id < a.id))).map ItemFila.aula
      | none, none => aulas_reagendar.map ItemFila.aula
    let fila := ((List.range deficit).map
      (fun i => ItemFila.marcador ("novo-" ++ toString i))) ++ fila0
    (walkDeficitF ano di df dias_sem_aula carga periodos_validos modulo.id data_limite
      (data_limite + 1 - data_inicio) data_inicio fila st).2

/-- `completar_modulos_profissionais`: backfill professional-track classes up
to each module's configured total, rescheduling what follows the insertion
point.  Returns the updated store and the number of added slots. -/
def completar_modulos_profissionais (db : DB) (turma_id : Nat)
    (data_removida modulo_removido_id : Option Nat) : DB × Nat :=
  match getTurma db turma_id with
  | none => (db, 0)
  | some turma =>
    if turma.tipo ≠ "profissional" then (db, 0)
    else
      match db.ano with
      | none => (db, 0)
      | some ano =>
        let periodos := filtrar_periodos_para_turma turma (sortPeriodos db.periodos)
        -- period dates are non-null dates, so the truthiness filter keeps all
        match periodos with
        | [] => (db, 0)
        | p0 :: ps =>
          let gm := garantir_modulos_para_turma db turma
          let modulos := gm.1
          let db1 := gm.2
          if modulos = [] then (db1, 0)
          else
            let carga := _mapa_carga_semana db1 turma
            if !(temCarga carga) then (db1, 0)
            else
              let totais := totaisDeficit modulos
              let prog := progressoAtual (ativosOrdenados db1.aulas)
              let deficitMap : Nat → Nat := fun j =>
                if 0 < totais j ∧ ((prog j : Nat) : Int) < totais j
                then (totais j - ((prog j : Nat) : Int)).toNat else 0
              if !(modulos.any (fun m => 0 < deficitMap m.id)) then (db1, 0)
              else
                let nl := _build_dias_nao_letivos db1
                let data_limite := ((p0 :: ps).map (fun p => p.data_fim)).foldl max 0
                let st0 : DeficitState := ⟨db1.aulas, db1.nextAulaId, 0⟩
                let stF := modulos.foldl
                  (moduloDeficitStep ano nl.1 nl.2 carga (p0 :: ps) p0.data_inicio
                    data_limite data_removida modulo_removido_id deficitMap) st0
                ({ db1 with aulas := stF.aulas, nextAulaId := stF.nextAulaId }, stF.total)

/-- The placeholder run takes at most the remaining capacity, and takes a
placeholder-only prefix of the queue. -/
theorem tomarMarcadores_spec (cap : Int) :
    ∀ (fila : List ItemFila) (taken : Nat),
    taken ≤ (tomarMarcadores cap fila taken).1
    ∧ ((tomarMarcadores cap fila taken).1 : Int) ≤ max (taken : Int) cap
    ∧ ∃ pref : List ItemFila,
        fila = pref ++ (tomarMarcadores cap fila taken).2
        ∧ pref.length + taken = (tomarMarcadores cap fila taken).1
        ∧ pref.filterMap itemAula = [] := by
  intro fila
  induction fila with
  | nil =>
    intro taken
    refine ⟨le_refl _, by simp [tomarMarcadores], [], rfl, by simp [tomarMarcadores], rfl⟩
  | cons it rest ih =>
    intro taken
    cases it with
    | aula a =>
      refine ⟨le_refl _, by simp [tomarMarcadores], [], rfl,
        by simp [tomarMarcadores], rfl⟩
    | marcador s =>
      by_cases hc : (taken : Int) < cap
      · have heq : tomarMarcadores cap (ItemFila.marcador s :: rest) taken
            = tomarMarcadores cap rest (taken + 1) := by
          simp [tomarMarcadores, hc]
        obtain ⟨h1, h2, pref, hsplit, hlen, hnone⟩ := ih (taken + 1)
        rw [heq]
        refine ⟨by omega, by push_cast at h2 ⊢; omega, ItemFila.marcador s :: pref, ?_, ?_, ?_⟩
        · rw [List.cons_append, ← hsplit]
        · simp only [List.length_cons]
          omega
        · simpa [itemAula] using hnone
      · have heq : tomarMarcadores cap (ItemFila.marcador s :: rest) taken
            = (taken, ItemFila.marcador s :: rest) := by
          simp [tomarMarcadores, hc]
        rw [heq]
        exact ⟨le_refl _, by simp, [], rfl, by simp, rfl⟩

/-- The total slots the day-fill loop schedules on the day — placeholders
created plus the net counts of the rows it moves there — stay within the
remaining capacity. -/
theorem diaDeficit_bound (pid d mid : Nat) (carga : Int) :
    ∀ (fuel : Nat) (fila : List ItemFila) (ag : Nat) (st : DeficitState),
    (ag : Int) ≤ carga →
    ∃ consumed : List ItemFila,
      fila = consumed ++ (diaDeficitF pid d mid carga fuel fila ag st).1
      ∧ ((diaDeficitF pid d mid carga fuel fila ag st).2.total : Int) - (st.total : Int)
          + ((consumed.filterMap itemAula).map (fun a => (_contar_aulas a : Int))).sum
          + (ag : Int)
        ≤ carga := by
  intro fuel
  induction fuel with
  | zero =>
    intro fila ag st hag
    exact ⟨[], rfl, by simpa [diaDeficitF] using hag⟩
  | succ n ih =>
    intro fila ag st hag
    by_cases hlt : (ag : Int) < carga
    · cases fila with
      | nil =>
        refine ⟨[], ?_, ?_⟩
        · simp [diaDeficitF, hlt]
        · simpa [diaDeficitF, hlt] using hag
      | cons it rest =>
        cases it with
        | aula a =>
          by_cases hbig : ((max 1 (_contar_aulas a) : Nat) : Int) > carga - (ag : Int)
          · refine ⟨[], ?_, ?_⟩
            · simp only [diaDeficitF, if_pos hlt]
              rw [if_pos hbig]
              rfl
            · simp only [diaDeficitF, if_pos hlt]
              rw [if_pos hbig]
              simpa using hag
          · have hag2 : ((ag + max 1 (_contar_aulas a) : Nat) : Int) ≤ carga := by
              push_cast
              push_cast at hbig
              omega
            obtain ⟨c2, hsplit, hsum⟩ := ih rest (ag + max 1 (_contar_aulas a))
              ({ st with aulas := st.aulas.map (fun b => if b.id = a.id then
                  { a with data := d, periodo_id := pid, weekday := d % 7 } else b) })
              hag2
            simp only [diaDeficitF, if_pos hlt, if_neg hbig]
            refine ⟨ItemFila.aula a :: c2, ?_, ?_⟩
            · rw [List.cons_append, ← hsplit]
            · simp only [List.filterMap_cons, itemAula, List.map_cons, List.sum_cons]
              simp only [] at hsum
              have hnet : (_contar_aulas a : Int) ≤ ((max 1 (_contar_aulas a) : Nat) : Int) := by
                push_cast
                omega
              push_cast at hsum ⊢
              omega
        | marcador s =>
          have hspec := tomarMarcadores_spec (carga - (ag : Int))
            (ItemFila.marcador s :: rest) 0
          obtain ⟨-, hk, pref, hsplit0, hlen, hnone⟩ := hspec
          have hk2 : ((tomarMarcadores (carga - (ag : Int))
              (ItemFila.marcador s :: rest) 0).1 : Int) ≤ carga - (ag : Int) := by
            have : max ((0 : Nat) : Int) (carga - (ag : Int)) = carga - (ag : Int) := by
              omega
            rw [this] at hk
            exact hk
          have hag2 : ((ag + (tomarMarcadores (carga - (ag : Int))
              (ItemFila.marcador s :: rest) 0).1 : Nat) : Int) ≤ carga := by
            push_cast
            push_cast at hk2
            omega
          obtain ⟨c2, hsplit, hsum⟩ := ih
            (tomarMarcadores (carga - (ag : Int)) (ItemFila.marcador s :: rest) 0).2
            (ag + (tomarMarcadores (carga - (ag : Int)) (ItemFila.marcador s :: rest) 0).1)
            ({ st with
                aulas := st.aulas ++ [⟨st.nextAulaId, pid, d, d % 7, some mid, none, none,
                  List.replicate (tomarMarcadores (carga - (ag : Int))
                    (ItemFila.marcador s :: rest) 0).1 "?", none, "normal", false, some 0⟩],
                nextAulaId := st.nextAulaId + 1,
                total := st.total + (tomarMarcadores (carga - (ag : Int))
                  (ItemFila.marcador s :: rest) 0).1 })
            hag2
          simp only [diaDeficitF, if_pos hlt]
          refine ⟨pref ++ c2, ?_, ?_⟩
          · rw [List.append_assoc, ← hsplit, ← hsplit0]
          · simp only [List.filterMap_append, hnone, List.nil_append]
            simp only [] at hsum
            push_cast at hsum ⊢
            omega
    · refine ⟨[], ?_, ?_⟩
      · simp [diaDeficitF, hlt]
      · simpa [diaDeficitF, hlt] using hag

/-- C6: the completer acts only on professional-track classes — a missing
class or any other track returns the store unchanged with count 0 — and on any
day its fill loop touches, the slots it schedules there (placeholders created
plus the net slot counts of the relocated lessons) never exceed the day's
resolved integer load. -/
theorem C6_professional_only_and_day_bound (db : DB) (tid : Nat)
    (dr rid : Option Nat) (turma : Turma) (pid d m : Nat) (carga : Int)
    (fuel : Nat) (fila : List ItemFila) (st : DeficitState)
    (hcarga : 0 < carga) :
    (getTurma db tid = none →
      completar_modulos_profissionais db tid dr rid = (db, 0))
    ∧ (getTurma db tid = some turma → turma.tipo ≠ "profissional" →
      completar_modulos_profissionais db tid dr rid = (db, 0))
    ∧ (∃ consumed : List ItemFila,
        fila = consumed ++ (diaDeficitF pid d m carga fuel fila 0 st).1
        ∧ ((diaDeficitF pid d m carga fuel fila 0 st).2.total : Int) - (st.total : Int)
            + ((consumed.filterMap itemAula).map (fun a => (_contar_aulas a : Int))).sum
          ≤ carga) := by
  refine ⟨?_, ?_, ?_⟩
  · intro h
    simp [completar_modulos_profissionais, h]
  · intro h htipo
    simp [completar_modulos_profissionais, h, htipo]
  · obtain ⟨consumed, hsplit, hsum⟩ := diaDeficit_bound pid d m carga fuel fila 0 st
      (by simpa using hcarga.le)
    refine ⟨consumed, hsplit, ?_⟩
    push_cast at hsum ⊢
    omega

/-- A regular-track class for the C6 witness. -/
def turmaC6 : Turma := ⟨1, "regular", "anual", none, none, none, none, none⟩

def dbC6 : DB :=
  { turma := some turmaC6, ano := none, periodos := [], modulos := [], horarios := [],
    interrupcoes := [], feriados := [], aulas := [], nextAulaId := 1, nextModuloId := 1 }

/-- A two-slot row queued for rescheduling in the C6 witness. -/
def aulaC6 : CalendarioAula :=
  ⟨5, 1, 9, 2, some 1, none, none, ["1", "2"], none, "normal", false, some 0⟩

/-- Witness: the C6 statement holds at a concrete class and day-fill call. -/
theorem C6_witness :
    (0 : Int) < 3
    ∧ ((getTurma dbC6 1 = none → completar_modulos_profissionais dbC6 1 none none = (dbC6, 0))
      ∧ (getTurma dbC6 1 = some turmaC6 → turmaC6.tipo ≠ "profissional" →
          completar_modulos_profissionais dbC6 1 none none = (dbC6, 0))
      ∧ (∃ consumed : List ItemFila,
          [ItemFila.marcador "novo-0", ItemFila.aula aulaC6]
            = consumed ++ (diaDeficitF 1 0 1 3 3
                [ItemFila.marcador "novo-0", ItemFila.aula aulaC6] 0 ⟨[aulaC6], 6, 0⟩).1
          ∧ ((diaDeficitF 1 0 1 3 3 [ItemFila.marcador "novo-0", ItemFila.aula aulaC6] 0
                ⟨[aulaC6], 6, 0⟩).2.total : Int)
                - ((⟨[aulaC6], 6, 0⟩ : DeficitState).total : Int)
              + ((consumed.filterMap itemAula).map (fun a => (_contar_aulas a : Int))).sum
            ≤ 3)) :=
  ⟨by decide, C6_professional_only_and_day_bound dbC6 1 none none turmaC6 1 0 1 3 3
    [ItemFila.marcador "novo-0", ItemFila.aula aulaC6] ⟨[aulaC6], 6, 0⟩ (by decide)⟩

/-- Gregorian leap year as `calendar.isleap` / `datetime` implement it. -/
def isLeap (y : Nat) : Bool :=
  (y % 4 = 0 && y % 100 ≠ 0) || y % 400 = 0

/-- Days in a month of the proleptic Gregorian calendar. -/
def daysInMonth (y m : Nat) : Nat :=
  if m = 2 then (if isLeap y then 29 else 28)
  else if m = 4 ∨ m = 6 ∨ m = 9 ∨ m = 11 then 30
  else 31

/-- A `datetime.date` value. -/
structure Date where
  year : Nat
  month : Nat
  day : Nat
deriving DecidableEq

/-- The field ranges `datetime.date` guarantees (upper year bound aside). -/
def validDate (x : Date) : Prop :=
  1 ≤ x.year ∧ 1 ≤ x.month ∧ x.month ≤ 12 ∧ 1 ≤ x.day ∧ x.day ≤ daysInMonth x.year x.month

instance (x : Date) : Decidable (validDate x) := by unfold validDate; infer_instance

/-- `date` comparison: lexicographic on `(year, month, day)`. -/
def dateLe (a b : Date) : Prop :=
  a.year < b.year ∨ (a.year = b.year ∧
    (a.month < b.month ∨ (a.month = b.month ∧ a.day ≤ b.day)))

def dateLt (a b : Date) : Prop :=
  a.year < b.year ∨ (a.year = b.year ∧
    (a.month < b.month ∨ (a.month = b.month ∧ a.day < b.day)))

instance : DecidableRel dateLe := fun a b => by unfold dateLe; infer_instance

instance : DecidableRel dateLt := fun a b => by unfold dateLt; infer_instance

/-- `atual + timedelta(days=1)`. -/
def nextDay (x : Date) : Date :=
  if x.day < daysInMonth x.year x.month then ⟨x.year, x.month, x.day + 1⟩
  else if x.month < 12 then ⟨x.year, x.month + 1, 1⟩
  else ⟨x.year + 1, 1, 1⟩

/-- An upper bound on the number of loop iterations left before `atual`
overtakes `fim` (`372 = 31 · 12` dominates any month layout). -/
def medidaRange (atual fim : Date) : Nat :=
  372 * (fim.year + 1 - atual.year) + 31 * (12 - atual.month) + (31 - atual.day)

/-- The `while atual <= d2` emission loop, driven structurally by the
iteration bound. -/
def rangeDatesF (fim : Date) : Nat → Date → List Date
  | 0, _ => []
  | fuel + 1, atual =>
    if dateLe atual fim then atual :: rangeDatesF fim fuel (nextDay atual) else []

/-- Every date from `d1` to `d2` inclusive, in order. -/
def rangeDates (d1 d2 : Date) : List Date :=
  rangeDatesF d2 (medidaRange d1 d2 + 1) d1

/-- `datetime.date(y, m, d)`: raises for out-of-range fields. -/
def mkDate (y m d : Nat) : Except String Date :=
  if 1 ≤ y ∧ y ≤ 9999 ∧ 1 ≤ m ∧ m ≤ 12 ∧ 1 ≤ d ∧ d ≤ daysInMonth y m
  then Except.ok ⟨y, m, d⟩
  else Except.error "day is out of range for month"

theorem daysInMonth_bounds (y m : Nat) : 28 ≤ daysInMonth y m ∧ daysInMonth y m ≤ 31 := by
  unfold daysInMonth
  split
  · split <;> omega
  · split <;> omega

theorem nextDay_valid (x : Date) (h : validDate x) : validDate (nextDay x) := by
  obtain ⟨h1, h2, h3, h4, h5⟩ := h
  have hb := daysInMonth_bounds x.year x.month
  unfold nextDay
  by_cases hd : x.day < daysInMonth x.year x.month
  · rw [if_pos hd]
    simp only [validDate]
    omega
  · rw [if_neg hd]
    by_cases hm : x.month < 12
    · rw [if_pos hm]
      have hb2 := daysInMonth_bounds x.year (x.month + 1)
      simp only [validDate]
      omega
    · rw [if_neg hm]
      have hb3 := daysInMonth_bounds (x.year + 1) 1
      simp only [validDate]
      omega

theorem lt_nextDay (x : Date) (h : validDate x) : dateLt x (nextDay x) := by
  obtain ⟨h1, h2, h3, h4, h5⟩ := h
  unfold nextDay
  by_cases hd : x.day < daysInMonth x.year x.month
  · rw [if_pos hd]
    exact Or.inr ⟨rfl, Or.inr ⟨rfl, Nat.lt_succ_self _⟩⟩
  · rw [if_neg hd]
    by_cases hm : x.month < 12
    · rw [if_pos hm]
      exact Or.inr ⟨rfl, Or.inl (Nat.lt_succ_self _)⟩
    · rw [if_neg hm]
      exact Or.inl (Nat.lt_succ_self _)

theorem nextDay_le_of_lt (x z : Date) (hx : validDate x) (hz : validDate z)
    (hlt : dateLt x z) : dateLe (nextDay x) z := by
  obtain ⟨hx1, hx2, hx3, hx4, hx5⟩ := hx
  obtain ⟨hz1, hz2, hz3, hz4, hz5⟩ := hz
  have hbx := daysInMonth_bounds x.year x.month
  unfold dateLt at hlt
  unfold nextDay dateLe
  by_cases hd : x.day < daysInMonth x.year x.month
  · rw [if_pos hd]
    simp only []
    rcases hlt with h | ⟨hy, h⟩
    · left; exact h
    · rcases h with h | ⟨hm, h⟩
      · right; exact ⟨hy, Or.inl h⟩
      · right; exact ⟨hy, Or.inr ⟨hm, by omega⟩⟩
  · rw [if_neg hd]
    by_cases hm : x.month < 12
    · rw [if_pos hm]
      simp only []
      rcases hlt with h | ⟨hy, h⟩
      · left; exact h
      · rcases h with h2 | ⟨hmm, h2⟩
        · by_cases hmz : x.month + 1 < z.month
          · right; exact ⟨hy, Or.inl hmz⟩
          · right; exact ⟨hy, Or.inr ⟨by omega, by omega⟩⟩
        · -- same month, z.day > x.day = daysInMonth: contradicts z's validity
          exfalso
          rw [hy, hmm] at hx5 hd
          omega
    · rw [if_neg hm]
      simp only []
      rcases hlt with h | ⟨hy, h⟩
      · by_cases hyz : x.year + 1 < z.year
        · left; exact hyz
        · right
          refine ⟨by omega, ?_⟩
          by_cases hmz : 1 < z.month
          · exact Or.inl hmz
          · exact Or.inr ⟨by omega, by omega⟩
      · rcases h with h2 | ⟨hmm, h2⟩
        · omega
        · exfalso
          rw [hy, hmm] at hx5 hd
          omega

theorem medida_decresce (atual fim : Date) (h : validDate atual)
    (hle : dateLe atual fim) :
    medidaRange (nextDay atual) fim < medidaRange atual fim := by
  obtain ⟨h1, h2, h3, h4, h5⟩ := h
  have hb := daysInMonth_bounds atual.year atual.month
  unfold dateLe at hle
  unfold nextDay medidaRange
  by_cases hd : atual.day < daysInMonth atual.year atual.month
  · rw [if_pos hd]
    simp only []
    omega
  · rw [if_neg hd]
    by_cases hm : atual.month < 12
    · rw [if_pos hm]
      simp only []
      omega
    · rw [if_neg hm]
      simp only []
      omega

theorem dateLe_refl (a : Date) : dateLe a a := Or.inr ⟨rfl, Or.inr ⟨rfl, le_refl _⟩⟩

theorem dateLe_trans {a b c : Date} (h1 : dateLe a b) (h2 : dateLe b c) : dateLe a c := by
  unfold dateLe at h1 h2 ⊢
  omega

theorem dateLt_of_le_of_ne {a b : Date} (h : dateLe a b) (hne : a ≠ b) : dateLt a b := by
  have hcomp : ¬(a.year = b.year ∧ a.month = b.month ∧ a.day = b.day) := by
    intro ⟨e1, e2, e3⟩
    apply hne
    cases a; cases b
    simp_all
  unfold dateLe at h
  unfold dateLt
  omega

theorem dateLe_of_lt {a b : Date} (h : dateLt a b) : dateLe a b := by
  unfold dateLt at h
  unfold dateLe
  omega

theorem rangeDatesF_sound (fim : Date) :
    ∀ (fuel : Nat) (atual : Date), validDate atual →
    ∀ x ∈ rangeDatesF fim fuel atual, dateLe atual x ∧ dateLe x fim := by
  intro fuel
  induction fuel with
  | zero =>
    intro atual _ x hx
    simp [rangeDatesF] at hx
  | succ n ih =>
    intro atual hv x hx
    by_cases hle : dateLe atual fim
    · simp only [rangeDatesF, if_pos hle] at hx
      rcases List.mem_cons.mp hx with rfl | hmem
      · exact ⟨dateLe_refl x, hle⟩
      · have h2 := ih (nextDay atual) (nextDay_valid atual hv) x hmem
        exact ⟨dateLe_trans (dateLe_of_lt (lt_nextDay atual hv)) h2.1, h2.2⟩
    · simp only [rangeDatesF, if_neg hle] at hx
      simp at hx

theorem rangeDatesF_complete (fim : Date) :
    ∀ (fuel : Nat) (atual x : Date), validDate atual → validDate x →
    medidaRange atual fim < fuel → dateLe atual x → dateLe x fim →
    x ∈ rangeDatesF fim fuel atual := by
  intro fuel
  induction fuel with
  | zero =>
    intro atual x _ _ hf _ _
    omega
  | succ n ih =>
    intro atual x hva hvx hf hax hxf
    have hale : dateLe atual fim := dateLe_trans hax hxf
    simp only [rangeDatesF, if_pos hale]
    by_cases heq : x = atual
    · rw [heq]
      exact List.mem_cons_self _ _
    · have hlt : dateLt atual x := dateLt_of_le_of_ne hax (fun h => heq h.symm)
      refine List.mem_cons_of_mem _ (ih (nextDay atual) x (nextDay_valid atual hva) hvx
        ?_ (nextDay_le_of_lt atual x hva hvx hlt) hxf)
      have hdec := medida_decresce atual fim hva hale
      omega

/-- Every valid date between the bounds is emitted. -/
theorem rangeDates_complete (d1 d2 x : Date) (h1 : validDate d1) (hx : validDate x)
    (ha : dateLe d1 x) (hb : dateLe x d2) : x ∈ rangeDates d1 d2 :=
  rangeDatesF_complete d2 _ d1 x h1 hx (Nat.lt_succ_self _) ha hb

/-- Only dates between the bounds are emitted. -/
theorem rangeDates_sound (d1 d2 x : Date) (h1 : validDate d1)
    (hx : x ∈ rangeDates d1 d2) : dateLe d1 x ∧ dateLe x d2 :=
  rangeDatesF_sound d2 _ d1 h1 x hx

/-- `str.lower()` restricted to the characters the parser can meet: ASCII
letters plus the accented uppercase letters of the month names. -/
def pyLower (c : Char) : Char :=
  if 'A' ≤ c ∧ c ≤ 'Z' then Char.ofNat (c.toNat + 32)
  else if c = 'Ç' then 'ç'
  else if c = 'Ã' then 'ã'
  else if c = 'É' then 'é'
  else if c = 'Ô' then 'ô'
  else c

/-- `\d` (ASCII digits). -/
def isDigitChar (c : Char) : Bool := '0' ≤ c && c ≤ '9'

/-- The month-name character class `[a-zçãéô]`. -/
def isMesChar (c : Char) : Bool :=
  ('a' ≤ c && c ≤ 'z') || c = 'ç' || c = 'ã' || c = 'é' || c = 'ô'

/-- `int` of a digit string. -/
def digitsToNat (l : List Char) : Nat :=
  l.foldl (fun acc c => acc * 10 + (c.toNat - '0'.toNat)) 0

def MESES_PT (nome : List Char) : Option Nat :=
  if nome = "janeiro".data then some 1
  else if nome = "fevereiro".data then some 2
  else if nome = "março".data then some 3
  else if nome = "marco".data then some 3
  else if nome = "abril".data then some 4
  else if nome = "maio".data then some 5
  else if nome = "junho".data then some 6
  else if nome = "julho".data then some 7
  else if nome = "agosto".data then some 8
  else if nome = "setembro".data then some 9
  else if nome = "outubro".data then some 10
  else if nome = "novembro".data then some 11
  else if nome = "dezembro".data then some 12
  else none

/-- The match `^(\d{1,2})\s+de\s+([a-zçãéô]+)(?:\s+de\s+(\d{4}))?$` on an
already stripped and lowered character list: day, month name, optional year. -/
def matchDataPt (l : List Char) : Option (Nat × List Char × Option Nat) :=
  let p1 := l.span isDigitChar
  if p1.1.length = 0 ∨ 2 < p1.1.length then none
  else
    let p2 := p1.2.span pyWhitespace
    if p2.1 = [] then none
    else
      match p2.2 with
      | 'd' :: 'e' :: r3 =>
        let p3 := r3.span pyWhitespace
        if p3.1 = [] then none
        else
          let p4 := p3.2.span isMesChar
          if p4.1 = [] then none
          else
            match p4.2 with
            | [] => some (digitsToNat p1.1, p4.1, none)
            | _ =>
              let p5 := p4.2.span pyWhitespace
              if p5.1 = [] then none
              else
                match p5.2 with
                | 'd' :: 'e' :: r7 =>
                  let p6 := r7.span pyWhitespace
                  if p6.1 = [] then none
                  else
                    let p7 := p6.2.span isDigitChar
                    if p7.1.length = 4 ∧ p7.2 = []
                    then some (digitsToNat p1.1, p4.1, some (digitsToNat p7.1))
                    else none
                | _ => none
      | _ => none

/-- `_parse_pt_date`: parse `"22 de dezembro de 2025"` (year optional when a
fallback year is given). -/
def _parse_pt_date (texto : String) (fallback_year : Option Nat) : Except String Date :=
  let t := (stripChars texto.data).map pyLower
  match matchDataPt t with
  | none => Except.error ("Formato de data PT não reconhecido: " ++ texto)
  | some (dia, mes_nome, ano_opt) =>
    let ano := match ano_opt with
      | some a => some a
      | none => fallback_year
    match ano with
    | none => Except.error ("Formato de data PT não reconhecido: " ++ texto)
    | some a =>
      if a = 0 then Except.error ("Formato de data PT não reconhecido: " ++ texto)
      else
        match MESES_PT mes_nome with
        | none => Except.error ("Mês PT não reconhecido: " ++ String.mk mes_nome)
        | some mes => mkDate a mes dia

/-- The two-days match
`^\s*(\d{1,2})\s+e\s+(\d{1,2})\s+de\s+([a-zçãéô]+)\s+de\s+(\d{4})\s*$`. -/
def matchDuasDatas (l : List Char) : Option (Nat × Nat × List Char × Nat) :=
  let p0 := l.span pyWhitespace
  let p1 := p0.2.span isDigitChar
  if p1.1.length = 0 ∨ 2 < p1.1.length then none
  else
    let p2 := p1.2.span pyWhitespace
    if p2.1 = [] then none
    else
      match p2.2 with
      | 'e' :: r3 =>
        let p3 := r3.span pyWhitespace
        if p3.1 = [] then none
        else
          let p4 := p3.2.span isDigitChar
          if p4.1.length = 0 ∨ 2 < p4.1.length then none
          else
            let p5 := p4.2.span pyWhitespace
            if p5.1 = [] then none
            else
              match p5.2 with
              | 'd' :: 'e' :: r6 =>
                let p6 := r6.span pyWhitespace
                if p6.1 = [] then none
                else
                  let p7 := p6.2.span isMesChar
                  if p7.1 = [] then none
                  else
                    let p8 := p7.2.span pyWhitespace
                    if p8.1 = [] then none
                    else
                      match p8.2 with
                      | 'd' :: 'e' :: r9 =>
                        let p9 := r9.span pyWhitespace
                        if p9.1 = [] then none
                        else
                          let p10 := p9.2.span isDigitChar
                          if p10.1.length = 4 ∧ (p10.2.span pyWhitespace).2 = []
                          then some (digitsToNat p1.1, digitsToNat p4.1, p7.1,
                            digitsToNat p10.1)
                          else none
                      | _ => none
              | _ => none
      | _ => none

/-- `" a " in t` together with `t.split(" a ", 1)`. -/
def splitA : List Char → Option (List Char × List Char)
  | [] => none
  | c :: rest =>
    if (c :: rest).take 3 = [' ', 'a', ' '] then some ([], (c :: rest).drop 3)
    else
      match splitA rest with
      | some p => some (c :: p.1, p.2)
      | none => none

/-- `^\s*(\d{1,2})\s*$`. -/
def apenasDia (l : List Char) : Option Nat :=
  let p0 := l.span pyWhitespace
  let p1 := p0.2.span isDigitChar
  if p1.1.length = 0 ∨ 2 < p1.1.length then none
  else if (p1.2.span pyWhitespace).2 = [] then some (digitsToNat p1.1)
  else none

/-- The `" a "` (interval) branch of `expand_dates`: parse the right side
first, the left side with the right's year as fallback (or as a bare day on
the right's month and year), swap inverted bounds, emit the inclusive range. -/
def expandRange (esquerda direita : List Char) : Except String (List Date) :=
  match _parse_pt_date (String.mk direita) none with
  | Except.error e => Except.error e
  | Except.ok d2 =>
    let d1E : Except String Date :=
      match _parse_pt_date (String.mk esquerda) (some d2.year) with
      | Except.ok d1 => Except.ok d1
      | Except.error e =>
        match apenasDia esquerda with
        | none => Except.error e
        | some dia => mkDate d2.year d2.month dia
    match d1E with
    | Except.error e => Except.error e
    | Except.ok d1 =>
      let p := if dateLt d2 d1 then (d2, d1) else (d1, d2)
      Except.ok (rangeDates p.1 p.2)

/-- `expand_dates`: expand a textual PT date description into a date list
(`todayYear` stands for `date.today().year`). -/
def expand_dates (data_inicial : Option Date) (data_text : Option String)
    (todayYear : Nat) : Except String (List Date) :=
  match data_text with
  | some s =>
    if stripChars s.data ≠ [] then
      let t := (stripChars s.data).map pyLower
      match matchDuasDatas t with
      | some (d1, d2, mes_nome, ano) =>
        match MESES_PT mes_nome with
        | none => Except.error ("Mês PT não reconhecido: " ++ String.mk mes_nome)
        | some mes =>
          match mkDate ano mes d1, mkDate ano mes d2 with
          | Except.ok x1, Except.ok x2 => Except.ok [x1, x2]
          | Except.error e, _ => Except.error e
          | _, Except.error e => Except.error e
      | none =>
        match splitA t with
        | some p => expandRange p.1 p.2
        | none =>
          let fy := match data_inicial with
            | some di => di.year
            | none => todayYear
          (_parse_pt_date (String.mk t) (some fy)).map (fun d => [d])
    else
      match data_inicial with
      | some di => Except.ok [di]
      | none => Except.ok []
  | none =>
    match data_inicial with
    | some di => Except.ok [di]
    | none => Except.ok []

/-- C8: expanding `"22 de dezembro de 2025 a 2 de janeiro de 2026"` yields the
12 consecutive dates 2025-12-22 .. 2026-01-02; and in general for a
`"<left> a <right>"` expression: the right side is parsed first and must carry
a full month and year (a year-less right side is a parse error, and any
right-side error is the expression's result), the left side may omit month and
year (inheriting the right's year, or — when it is a bare day — the right's
month and year), inverted bounds are swapped, and exactly the dates from min
to max inclusive are emitted. -/
theorem C8_range_expansion (esq dir : List Char) (e : String) (dia : Nat)
    (mes_nome : List Char) (d1 d2 x : Date) :
    (expand_dates none (some "22 de dezembro de 2025 a 2 de janeiro de 2026") 2026
      = Except.ok [⟨2025, 12, 22⟩, ⟨2025, 12, 23⟩, ⟨2025, 12, 24⟩, ⟨2025, 12, 25⟩,
          ⟨2025, 12, 26⟩, ⟨2025, 12, 27⟩, ⟨2025, 12, 28⟩, ⟨2025, 12, 29⟩,
          ⟨2025, 12, 30⟩, ⟨2025, 12, 31⟩, ⟨2026, 1, 1⟩, ⟨2026, 1, 2⟩])
    ∧ (matchDataPt ((stripChars dir).map pyLower) = some (dia, mes_nome, none) →
        ∃ e2, _parse_pt_date (String.mk dir) none = Except.error e2)
    ∧ (_parse_pt_date (String.mk dir) none = Except.error e →
        expandRange esq dir = Except.error e)
    ∧ (_parse_pt_date (String.mk dir) none = Except.ok d2 →
        _parse_pt_date (String.mk esq) (some d2.year) = Except.ok d1 →
        expandRange esq dir = Except.ok (rangeDates (if dateLt d2 d1 then d2 else d1)
          (if dateLt d2 d1 then d1 else d2)))
    ∧ (_parse_pt_date (String.mk dir) none = Except.ok d2 →
        _parse_pt_date (String.mk esq) (some d2.year) = Except.error e →
        apenasDia esq = some dia →
        expandRange esq dir = (mkDate d2.year d2.month dia).bind (fun z =>
          Except.ok (rangeDates (if dateLt d2 z then d2 else z)
            (if dateLt d2 z then z else d2))))
    ∧ (validDate d1 → validDate x → dateLe d1 x → dateLe x d2 →
        x ∈ rangeDates d1 d2)
    ∧ (validDate d1 → x ∈ rangeDates d1 d2 → dateLe d1 x ∧ dateLe x d2) := by
  refine ⟨rfl, ?_, ?_, ?_, ?_, ?_, ?_⟩
  · intro h
    refine ⟨"Formato de data PT não reconhecido: " ++ String.mk dir, ?_⟩
    simp only [_parse_pt_date, show (String.mk dir).data = dir from rfl, h]
  · intro h
    simp only [expandRange, h]
  · intro h2 h1
    by_cases hsw : dateLt d2 d1 <;> simp [expandRange, h2, h1, hsw]
  · intro h2 h1 hap
    simp only [expandRange, h2, h1, hap]
    cases hmk : mkDate d2.year d2.month dia with
    | error e2 => simp [hmk, Except.bind]
    | ok z => by_cases hsw : dateLt d2 z <;> simp [hmk, Except.bind, hsw]
  · intro hv1 hvx ha hb
    exact rangeDates_complete d1 d2 x hv1 hvx ha hb
  · intro hv1 hx
    exact rangeDates_sound d1 d2 x hv1 hx

/-- Witness: the C8 statement holds at concrete range expressions. -/
theorem C8_witness :
    (∃ e2, _parse_pt_date (String.mk "2 de janeiro".data) none = Except.error e2)
    ∧ expandRange "x".data "notadate".data
        = Except.error "Formato de data PT não reconhecido: notadate"
    ∧ expandRange "22 de dezembro".data "2 de janeiro de 2026".data
        = Except.ok (rangeDates
            (if dateLt ⟨2026, 1, 2⟩ ⟨2026, 12, 22⟩ then ⟨2026, 1, 2⟩ else ⟨2026, 12, 22⟩)
            (if dateLt ⟨2026, 1, 2⟩ ⟨2026, 12, 22⟩ then ⟨2026, 12, 22⟩ else ⟨2026, 1, 2⟩))
    ∧ expandRange "22".data "28 de janeiro de 2026".data
        = (mkDate 2026 1 22).bind (fun z =>
            Except.ok (rangeDates (if dateLt ⟨2026, 1, 28⟩ z then ⟨2026, 1, 28⟩ else z)
              (if dateLt ⟨2026, 1, 28⟩ z then z else ⟨2026, 1, 28⟩)))
    ∧ (⟨2025, 12, 31⟩ : Date) ∈ rangeDates ⟨2025, 12, 22⟩ ⟨2026, 1, 2⟩
    ∧ (dateLe ⟨2025, 12, 22⟩ ⟨2025, 12, 31⟩ ∧ dateLe ⟨2025, 12, 31⟩ ⟨2026, 1, 2⟩) :=
  ⟨(C8_range_expansion [] "2 de janeiro".data "" 2 "janeiro".data
      ⟨1, 1, 1⟩ ⟨1, 1, 1⟩ ⟨1, 1, 1⟩).2.1 rfl,
   (C8_range_expansion "x".data "notadate".data
      "Formato de data PT não reconhecido: notadate" 0 []
      ⟨1, 1, 1⟩ ⟨1, 1, 1⟩ ⟨1, 1, 1⟩).2.2.1 rfl,
   (C8_range_expansion "22 de dezembro".data "2 de janeiro de 2026".data "" 0 []
      ⟨2026, 12, 22⟩ ⟨2026, 1, 2⟩ ⟨1, 1, 1⟩).2.2.2.1 rfl rfl,
   (C8_range_expansion "22".data "28 de janeiro de 2026".data
      "Formato de data PT não reconhecido: 22" 22 []
      ⟨1, 1, 1⟩ ⟨2026, 1, 28⟩ ⟨1, 1, 1⟩).2.2.2.2.1 rfl rfl rfl,
   (C8_range_expansion [] [] "" 0 [] ⟨2025, 12, 22⟩ ⟨2026, 1, 2⟩
      ⟨2025, 12, 31⟩).2.2.2.2.2.1 (by decide) (by decide) (by decide) (by decide),
   (C8_range_expansion [] [] "" 0 [] ⟨2025, 12, 22⟩ ⟨2026, 1, 2⟩
      ⟨2025, 12, 31⟩).2.2.2.2.2.2 (by decide) (by decide)⟩

end Sumarios
